import Mathlib

/-!
Verification development for the planning-poker session layer.

The definitions below are a shallow embedding of the backend source:
`backend/src/database/in-memory-db.ts` (class `InMemoryDatabase`),
`backend/src/database/room-utils.ts`, `backend/src/database/statistics.ts`,
`backend/src/services/estimation-service.ts` (class `EstimationServiceImpl`),
`backend/src/services/room-service.ts`, `backend/src/services/player-service.ts`
and the pure state-transition content of
`backend/src/services/websocket-service.ts` (class `WebSocketService`).

JavaScript `Map`s are embedded as association lists with `Map.set`
replace-in-place-or-append semantics, JS arrays as lists, thrown exceptions
and `{success, error}` results as `Option String` error components threaded
with the state, `uuid()` and `new Date()` as explicit parameters, and
numbers as rationals.
-/

namespace PlanningPoker

/-! ## String helpers: `toLowerCase` and `trim` -/

/-- Embedding of JS `String.prototype.toLowerCase` (per-character lowering). -/
def lowerStr (s : String) : String := ⟨s.data.map Char.toLower⟩

/-- Removes the maximal trailing run of whitespace characters from a list. -/
def dropTrailingWs : List Char → List Char
  | [] => []
  | c :: t =>
      let r := dropTrailingWs t
      if r.isEmpty && c.isWhitespace then [] else c :: r

/-- Embedding of JS `String.prototype.trim`: drop leading and trailing whitespace. -/
def trimChars (l : List Char) : List Char :=
  dropTrailingWs (l.dropWhile Char.isWhitespace)

/-- String wrapper around `trimChars`. -/
def trimStr (s : String) : String := ⟨trimChars s.data⟩

/-! ## Association lists with JS `Map` semantics -/

/-- Embedding of `Map.get`: value of the entry holding the key, if any. -/
def alGet {α β : Type} [DecidableEq α] (m : List (α × β)) (k : α) : Option β :=
  (m.find? (fun e => e.1 = k)).map (·.2)

/-- Embedding of `Map.set`: replace the value in place when the key is
present, otherwise append a fresh entry at the end (JS insertion order). -/
def alSet {α β : Type} [DecidableEq α] (m : List (α × β)) (k : α) (v : β) :
    List (α × β) :=
  match m with
  | [] => [(k, v)]
  | e :: es => if e.1 = k then (k, v) :: es else e :: alSet es k v

/-- Embedding of `Map.delete`: remove the entries holding the key
(a JS `Map` holds at most one). -/
def alDel {α β : Type} [DecidableEq α] (m : List (α × β)) (k : α) :
    List (α × β) :=
  m.filter (fun e => e.1 ≠ k)

/-- Embedding of `Map.has`. -/
def alHas {α β : Type} [DecidableEq α] (m : List (α × β)) (k : α) : Bool :=
  (alGet m k).isSome

/-! ## Data model (`shared/types.d.ts`) -/

/-- Embedding of interface `Player`: server-generated id token, display
name, connectivity flag and join timestamp. -/
structure Player where
  id : String
  name : String
  isConnected : Bool
  joinedAt : Nat
deriving DecidableEq, Repr

/-- Embedding of interface `EstimationRound`: the `cards` map from player
id to submitted card value, the `isRevealed` flag and a start timestamp. -/
structure EstimationRound where
  cards : List (String × String)
  isRevealed : Bool
  startedAt : Nat
deriving DecidableEq, Repr

/-- Embedding of interface `Room`. -/
structure Room where
  id : String
  name : String
  createdAt : Nat
  players : List Player
  currentRound : Option EstimationRound
deriving DecidableEq, Repr

/-- Embedding of the private state of class `InMemoryDatabase`: the
`rooms` map and the `playerRoomMap` reverse map. -/
structure DB where
  rooms : List (String × Room)
  playerRoomMap : List (String × String)
deriving DecidableEq, Repr

/-- The empty database (a freshly constructed `InMemoryDatabase`). -/
def DB.empty : DB := ⟨[], []⟩

namespace DB

/-- Embedding of `InMemoryDatabase.createRoom`. -/
def createRoom (room : Room) (db : DB) : DB :=
  { db with rooms := alSet db.rooms room.id room }

/-- Embedding of `InMemoryDatabase.getRoom` (copy-out is identity here). -/
def getRoom (db : DB) (roomId : String) : Option Room :=
  alGet db.rooms roomId

/-- Embedding of `InMemoryDatabase.getPlayerRoom`. -/
def getPlayerRoom (db : DB) (playerId : String) : Option String :=
  alGet db.playerRoomMap playerId

/-- Embedding of `InMemoryDatabase.removePlayerFromRoom`: filter the player
out of the room's list, delete their card from the current round whenever
one exists, and delete the reverse mapping. Returns `false` only when the
room is absent. -/
def removePlayerFromRoom (roomId playerId : String) (db : DB) : DB × Bool :=
  match db.getRoom roomId with
  | none => (db, false)
  | some room =>
      let updatedPlayers := room.players.filter (fun p => p.id ≠ playerId)
      let updatedRoom :=
        match room.currentRound with
        | none => { room with players := updatedPlayers }
        | some round =>
            { room with
                players := updatedPlayers
                currentRound := some { round with cards := alDel round.cards playerId } }
      ({ rooms := alSet db.rooms roomId updatedRoom
         playerRoomMap := alDel db.playerRoomMap playerId }, true)

/-- Embedding of `InMemoryDatabase.removePlayerFromCurrentRoom`. -/
def removePlayerFromCurrentRoom (playerId : String) (db : DB) : DB × Bool :=
  match db.getPlayerRoom playerId with
  | none => (db, false)
  | some currentRoomId => removePlayerFromRoom currentRoomId playerId db

/-- Embedding of `InMemoryDatabase.addPlayerToRoom`: fails when the room is
absent; otherwise first removes the player from any room they are mapped
to, then appends them to the room snapshot taken before that removal (the
source spreads the earlier `room` binding) and records the reverse
mapping. -/
def addPlayerToRoom (roomId : String) (player : Player) (db : DB) : DB × Bool :=
  match db.getRoom roomId with
  | none => (db, false)
  | some room =>
      let db1 := (removePlayerFromCurrentRoom player.id db).1
      ({ rooms := alSet db1.rooms roomId
           { room with players := room.players ++ [player] }
         playerRoomMap := alSet db1.playerRoomMap player.id roomId }, true)

/-- Replaces the first player whose id matches, leaving the rest unchanged
(embedding of the `findIndex` / copy / index-assignment sequence). -/
def replaceFirstPlayer (playerId : String) (f : Player → Player) :
    List Player → List Player
  | [] => []
  | p :: ps => if p.id = playerId then f p :: ps
               else p :: replaceFirstPlayer playerId f ps

/-- Embedding of `InMemoryDatabase.updatePlayerInRoom`. The only `updates`
partial the backend ever passes is `{isConnected}`, embedded as an
`Option Bool`. When the update sets `isConnected` to `false` and an
unrevealed round is active, the player's card is deleted from it. -/
def updatePlayerInRoom (roomId playerId : String) (isConnected? : Option Bool)
    (db : DB) : DB × Bool :=
  match db.getRoom roomId with
  | none => (db, false)
  | some room =>
      if room.players.all (fun p => p.id ≠ playerId) then (db, false)
      else
        let patch := fun (p : Player) =>
          { p with isConnected := isConnected?.getD p.isConnected }
        let updatedPlayers := replaceFirstPlayer playerId patch room.players
        let cleanCards :=
          match isConnected?, room.currentRound with
          | some false, some round =>
              if round.isRevealed then room.currentRound
              else some { round with cards := alDel round.cards playerId }
          | _, _ => room.currentRound
        let room1 : Room :=
          { room with players := updatedPlayers, currentRound := cleanCards }
        ({ db with rooms := alSet db.rooms roomId room1 }, true)

/-- Embedding of `InMemoryDatabase.setCurrentRound` (wholesale replacement). -/
def setCurrentRound (roomId : String) (round : Option EstimationRound)
    (db : DB) : DB × Bool :=
  match db.getRoom roomId with
  | none => (db, false)
  | some room =>
      let room1 : Room := { room with currentRound := round }
      ({ db with rooms := alSet db.rooms roomId room1 }, true)

/-- Embedding of `InMemoryDatabase.getCurrentRound`. -/
def getCurrentRound (db : DB) (roomId : String) : Option EstimationRound :=
  (db.getRoom roomId).bind (·.currentRound)

/-- Embedding of `InMemoryDatabase.addCardToCurrentRound`: last-write-wins
insertion into the round's cards map; fails only when the room or round is
absent. -/
def addCardToCurrentRound (roomId playerId cardValue : String) (db : DB) :
    DB × Bool :=
  match db.getRoom roomId with
  | none => (db, false)
  | some room =>
      match room.currentRound with
      | none => (db, false)
      | some round =>
          let round1 : EstimationRound :=
            { round with cards := alSet round.cards playerId cardValue }
          let room1 : Room := { room with currentRound := some round1 }
          ({ db with rooms := alSet db.rooms roomId room1 }, true)

/-- Embedding of `InMemoryDatabase.revealCardsInCurrentRound`: sets the
`isRevealed` flag (idempotently at this layer); fails only when the room or
round is absent. -/
def revealCardsInCurrentRound (roomId : String) (db : DB) : DB × Bool :=
  match db.getRoom roomId with
  | none => (db, false)
  | some room =>
      match room.currentRound with
      | none => (db, false)
      | some round =>
          let round1 : EstimationRound := { round with isRevealed := true }
          let room1 : Room := { room with currentRound := some round1 }
          ({ db with rooms := alSet db.rooms roomId room1 }, true)

end DB

/-! ## Room utilities (`database/room-utils.ts`) -/

namespace RoomUtils

/-- Result shape of `joinRoom`: `{success, room?, player?, error?}`. -/
structure JoinResult where
  success : Bool
  room : Option Room
  player : Option Player
  error : Option String
deriving DecidableEq, Repr

/-- Result shape of `leaveRoom` / `updatePlayerConnectionStatus`:
`{success, roomId?}`. -/
structure LeaveResult where
  success : Bool
  roomId : Option String
deriving DecidableEq, Repr

/-- Embedding of `createRoom` in room-utils: trims the name, uses it as the
room id, inserts the room with no players and no round. The `uuid`-free
identity and the creation instant are the explicit `now` parameter. -/
def createRoom (name : String) (now : Nat) (db : DB) : DB × Room :=
  let trimmedName := trimStr name
  let room : Room :=
    { id := trimmedName, name := trimmedName, createdAt := now
      players := [], currentRound := none }
  (db.createRoom room, room)

/-- Embedding of `createPlayer`: fresh token `freshId` stands for `uuidv4()`
and `now` for `new Date()`; the display name is trimmed. -/
def createPlayer (name freshId : String) (now : Nat) : Player :=
  { id := freshId, name := trimStr name, isConnected := true, joinedAt := now }

/-- Embedding of `createEstimationRound`: empty cards map, unrevealed. -/
def createEstimationRound (now : Nat) : EstimationRound :=
  { cards := [], isRevealed := false, startedAt := now }

/-- Embedding of `joinRoom`: case-insensitive scan of the room's players;
an inactive match is reconnected in place, an active match is a name
conflict, no match creates and adds a fresh player. -/
def joinRoom (roomId playerName freshId : String) (now : Nat) (db : DB) :
    DB × JoinResult :=
  match db.getRoom roomId with
  | none => (db, ⟨false, none, none, some "Room not found"⟩)
  | some room =>
      match room.players.find? (fun p => lowerStr p.name = lowerStr playerName) with
      | some existingPlayer =>
          if existingPlayer.isConnected then
            (db, ⟨false, none, none, some "Player name already taken in this room"⟩)
          else
            let r1 := DB.updatePlayerInRoom roomId existingPlayer.id (some true) db
            if r1.2 then
              let updatedRoom := r1.1.getRoom roomId
              let updatedPlayer := updatedRoom.bind
                (fun r => r.players.find? (fun p => p.id = existingPlayer.id))
              (r1.1, ⟨true, updatedRoom, updatedPlayer, none⟩)
            else (r1.1, ⟨false, none, none, some "Failed to reconnect player"⟩)
      | none =>
          let player := createPlayer playerName freshId now
          let r1 := DB.addPlayerToRoom roomId player db
          if r1.2 then
            (r1.1, ⟨true, r1.1.getRoom roomId, some player, none⟩)
          else (r1.1, ⟨false, none, none, some "Failed to join room"⟩)

/-- Embedding of `leaveRoom`: reverse-map lookup then removal. -/
def leaveRoom (playerId : String) (db : DB) : DB × LeaveResult :=
  match db.getPlayerRoom playerId with
  | none => (db, ⟨false, none⟩)
  | some roomId =>
      let r1 := DB.removePlayerFromRoom roomId playerId db
      (r1.1, ⟨r1.2, if r1.2 then some roomId else none⟩)

/-- Embedding of `startEstimationRound`: errors on a missing room or an
empty participant list, otherwise replaces the current round wholesale with
a fresh empty unrevealed one. The error component is `none` on success. -/
def startEstimationRound (roomId : String) (now : Nat) (db : DB) :
    DB × Option String :=
  match db.getRoom roomId with
  | none => (db, some "Room not found")
  | some room =>
      if room.players.isEmpty then (db, some "Cannot start round with no players")
      else
        let r1 := DB.setCurrentRound roomId (some (createEstimationRound now)) db
        (r1.1, if r1.2 then none else some "Failed to start round")

/-- Embedding of `submitCard` in room-utils: requires the room, an active
round, the round unrevealed, and the player a member; then records the
card last-write-wins. -/
def submitCard (roomId playerId cardValue : String) (db : DB) :
    DB × Option String :=
  match db.getRoom roomId with
  | none => (db, some "Room not found")
  | some room =>
      match room.currentRound with
      | none => (db, some "No active estimation round")
      | some round =>
          if round.isRevealed then (db, some "Cards have already been revealed")
          else if room.players.all (fun p => p.id ≠ playerId) then
            (db, some "Player not in room")
          else
            let r1 := DB.addCardToCurrentRound roomId playerId cardValue db
            (r1.1, if r1.2 then none else some "Failed to submit card")

/-- Embedding of `revealCards` in room-utils: requires the room, an active
round, and the round not yet revealed. -/
def revealCards (roomId : String) (db : DB) : DB × Option String :=
  match db.getRoom roomId with
  | none => (db, some "Room not found")
  | some room =>
      match room.currentRound with
      | none => (db, some "No active estimation round")
      | some round =>
          if round.isRevealed then (db, some "Cards are already revealed")
          else
            let r1 := DB.revealCardsInCurrentRound roomId db
            (r1.1, if r1.2 then none else some "Failed to reveal cards")

/-- Embedding of `updatePlayerConnectionStatus`: reverse-map lookup then
`updatePlayerInRoom` with the `{isConnected}` partial. -/
def updatePlayerConnectionStatus (playerId : String) (isConnected : Bool)
    (db : DB) : DB × LeaveResult :=
  match db.getPlayerRoom playerId with
  | none => (db, ⟨false, none⟩)
  | some roomId =>
      let r1 := DB.updatePlayerInRoom roomId playerId (some isConnected) db
      (r1.1, ⟨r1.2, if r1.2 then some roomId else none⟩)

end RoomUtils

/-! ## Statistics engine (`database/statistics.ts`) -/

/-- The fixed 10-value deck `PLANNING_POKER_DECK` from `shared/types.d.ts`,
order-sensitive for the range sort. -/
def PLANNING_POKER_DECK : List String :=
  ["0.5", "1", "2", "3", "5", "8", "13", "21", "?", "☕"]

/-- Numeric value of a digit list read left to right. -/
def natOfDigits (l : List Char) : Nat :=
  l.foldl (fun a c => a * 10 + (c.toNat - 48)) 0

/-- Embedding of JS `parseFloat` on the card-value domain: a non-empty
plain decimal literal `digits[.digits]` parses to the corresponding
rational, anything else (the `?` and `☕` sentinels) is `NaN`, embedded as
`none`. -/
def parseFloatQ (s : String) : Option ℚ :=
  let l := s.data
  let intDs := l.takeWhile Char.isDigit
  let rest := l.dropWhile Char.isDigit
  match rest with
  | [] => if intDs.isEmpty then none else some (natOfDigits intDs)
  | '.' :: rest2 =>
      let fracDs := rest2.takeWhile Char.isDigit
      let rest3 := rest2.dropWhile Char.isDigit
      if rest3.isEmpty && !(intDs.isEmpty && fracDs.isEmpty) then
        some ((natOfDigits intDs : ℚ) + (natOfDigits fracDs : ℚ) / (10 ^ fracDs.length))
      else none
  | _ => none

/-- Digit character for a value below ten. -/
def digitChar (n : Nat) : Char := Char.ofNat (48 + n)

/-- Decimal digits of a natural number, fuel-recursive. -/
def natToStrAux : Nat → Nat → List Char
  | 0, _ => []
  | _ + 1, 0 => []
  | fuel + 1, n => natToStrAux fuel (n / 10) ++ [digitChar (n % 10)]

/-- Decimal string of a natural number. -/
def natToStr (n : Nat) : String :=
  if n = 0 then "0" else ⟨natToStrAux 40 n⟩

/-- Digits after the decimal point of `r / d` (`0 < r < d`), stopping when
the remainder vanishes, fuel-recursive. -/
def fracDigitChars : Nat → Nat → Nat → List Char
  | 0, _, _ => []
  | fuel + 1, r, d =>
      let r10 := r * 10
      if r10 % d = 0 then [digitChar (r10 / d)]
      else digitChar (r10 / d) :: fracDigitChars fuel (r10 % d) d

/-- Embedding of JS `Number.prototype.toString` on the finitely-decimal
rationals the median computation produces: integer part, then the exact
fractional expansion when non-zero. -/
def ratToString (q : ℚ) : String :=
  let sign : String := if q.num < 0 then "-" else ""
  let na := q.num.natAbs
  let d := q.den
  if na % d = 0 then sign ++ natToStr (na / d)
  else sign ++ natToStr (na / d) ++ "." ++ (⟨fracDigitChars 40 (na % d) d⟩ : String)

/-- Embedding of `Math.round(x * 100) / 100`: round to two decimals,
halves upward as JS `Math.round` does. -/
def round2 (q : ℚ) : ℚ := ((⌊q * 100 + 1/2⌋ : ℤ) : ℚ) / 100

/-- Stable insertion of a number into an ascending list. -/
def insertNum (x : ℚ) : List ℚ → List ℚ
  | [] => [x]
  | y :: ys => if x ≤ y then x :: y :: ys else y :: insertNum x ys

/-- Embedding of `[...numericCards].sort((a, b) => a - b)`: stable
ascending numeric sort. -/
def sortNums : List ℚ → List ℚ
  | [] => []
  | x :: xs => insertNum x (sortNums xs)

/-- First-occurrence deduplication, the order `[...new Set(xs)]` yields. -/
def dedupFirst (l : List String) : List String :=
  l.foldl (fun acc x => if x ∈ acc then acc else acc ++ [x]) []

/-- Embedding of the comparator inside `sortCardValuesByDeckOrder`: deck
members by deck index, deck members before non-members, remaining ties by
lexicographic order standing in for `localeCompare`. -/
def cmpCards (a b : String) : Int :=
  match PLANNING_POKER_DECK.findIdx? (· = a), PLANNING_POKER_DECK.findIdx? (· = b) with
  | some i, some j => (i : Int) - (j : Int)
  | some _, none => -1
  | none, some _ => 1
  | none, none => if a < b then -1 else if a = b then 0 else 1

/-- Stable insertion of one value into a comparator-sorted list. -/
def insertCmp (x : String) : List String → List String
  | [] => [x]
  | y :: ys => if cmpCards x y ≤ 0 then x :: y :: ys else y :: insertCmp x ys

/-- Embedding of `sortCardValuesByDeckOrder`: stable sort by `cmpCards`. -/
def sortCardValuesByDeckOrder : List String → List String
  | [] => []
  | x :: xs => insertCmp x (sortCardValuesByDeckOrder xs)

/-- Aggregate statistics block of an `EstimationResult`. -/
structure Statistics where
  average : ℚ
  median : String
  range : List String
  hasVariance : Bool
deriving DecidableEq, Repr

/-- The numeric subset of the submitted values, in submission order (the
`numericCards` accumulator of `calculateStatistics`). -/
def numericCardsOf (cardValues : List String) : List ℚ :=
  cardValues.filterMap parseFloatQ

/-- The non-numeric subset of the submitted values, in submission order
(the `nonNumericCards` accumulator of `calculateStatistics`). -/
def nonNumericCardsOf (cardValues : List String) : List String :=
  cardValues.filter (fun v => (parseFloatQ v).isNone)

/-- Embedding of `calculateStatistics`: partition into numeric and
non-numeric, mean and median and variance flag over the numeric subset,
first non-numeric as degenerate median, deduplicated deck-ordered range. -/
def calculateStatistics (cardValues : List String) : Statistics :=
  let numericCards : List ℚ := numericCardsOf cardValues
  let nonNumericCards : List String := nonNumericCardsOf cardValues
  let range := sortCardValuesByDeckOrder (dedupFirst cardValues)
  if numericCards.length ≠ 0 then
    let average := numericCards.sum / numericCards.length
    let sortedNumeric := sortNums numericCards
    let midIndex := sortedNumeric.length / 2
    let median :=
      if sortedNumeric.length % 2 = 0 then
        ratToString ((sortedNumeric.getD (midIndex - 1) 0 + sortedNumeric.getD midIndex 0) / 2)
      else ratToString (sortedNumeric.getD midIndex 0)
    let mn := numericCards.foldl min (numericCards.getD 0 0)
    let mx := numericCards.foldl max (numericCards.getD 0 0)
    let hasVariance := decide (mx - mn > 2) || (decide (mn > 0) && decide (mx / mn > 2))
    { average := round2 average, median := median, range := range
      hasVariance := hasVariance }
  else if nonNumericCards.length ≠ 0 then
    { average := round2 0, median := nonNumericCards.getD 0 "", range := range
      hasVariance := false }
  else
    { average := round2 0, median := "0", range := range, hasVariance := false }

/-- One `(playerId, playerName, cardValue)` row of an `EstimationResult`. -/
structure ResultCard where
  playerId : String
  playerName : String
  cardValue : String
deriving DecidableEq, Repr

/-- Embedding of interface `EstimationResult`. -/
structure EstimationResult where
  cards : List ResultCard
  statistics : Statistics
deriving DecidableEq, Repr

/-- Embedding of `calculateEstimationResult`: `none` unless the room has a
revealed round; each card row resolves the player name (`"Unknown"` when
the token no longer belongs to the room); empty submission maps produce
the fixed zero statistics. -/
def calculateEstimationResult (db : DB) (roomId : String) :
    Option EstimationResult :=
  match db.getRoom roomId with
  | none => none
  | some room =>
      match room.currentRound with
      | none => none
      | some round =>
          if round.isRevealed then
            let cards : List ResultCard := round.cards.map (fun e =>
              { playerId := e.1
                playerName := ((room.players.find? (fun p => p.id = e.1)).map (·.name)).getD "Unknown"
                cardValue := e.2 })
            if cards.isEmpty then
              some { cards := []
                     statistics := { average := 0, median := "0", range := [], hasVariance := false } }
            else
              some { cards := cards
                     statistics := calculateStatistics (cards.map (·.cardValue)) }
          else none

/-! ## Estimation service (`services/estimation-service.ts`,
class `EstimationServiceImpl`). Thrown exceptions are embedded as a
`some message` (or `Except.error message`) component threaded with the
state reached at the throw point. -/

namespace ES

/-- Embedding of `EstimationServiceImpl.startRound`. -/
def startRound (roomId : String) (now : Nat) (db : DB) : DB × Option String :=
  if roomId = "" then (db, some "Room ID is required")
  else
    match db.getRoom roomId with
    | none => (db, some "Room not found")
    | some room =>
        if room.players.isEmpty then (db, some "Cannot start round with no players")
        else
          let newRound : EstimationRound :=
            { cards := [], isRevealed := false, startedAt := now }
          let r1 := DB.setCurrentRound roomId (some newRound) db
          (r1.1, if r1.2 then none else some "Failed to start estimation round")

/-- The `PLANNING_POKER_DECK.join(', ')` fragment of the invalid-card
message. -/
def deckJoined : String := "0.5, 1, 2, 3, 5, 8, 13, 21, ?, ☕"

/-- Embedding of `EstimationServiceImpl.submitCard`: validates inputs and
deck membership, then room membership, then requires an active round that
is not yet revealed, and finally records the card last-write-wins. -/
def submitCard (roomId playerId cardValue : String) (db : DB) :
    DB × Option String :=
  if roomId = "" || playerId = "" then
    (db, some "Room ID, player ID, and card value are required")
  else if cardValue ∉ PLANNING_POKER_DECK then
    (db, some ("Invalid card value. Must be one of: " ++ deckJoined))
  else
    match db.getRoom roomId with
    | none => (db, some "Room not found")
    | some room =>
        if room.players.all (fun p => p.id ≠ playerId) then
          (db, some "Player not found in room")
        else
          match db.getCurrentRound roomId with
          | none => (db, some "No active estimation round")
          | some currentRound =>
              if currentRound.isRevealed then
                (db, some "Cannot submit card after cards have been revealed")
              else
                let r1 := DB.addCardToCurrentRound roomId playerId cardValue db
                (r1.1, if r1.2 then none else some "Failed to submit card")

/-- Embedding of `EstimationServiceImpl.revealCards`: requires an active
round that is not yet revealed, marks it revealed and returns the freshly
computed `EstimationResult`. -/
def revealCards (roomId : String) (db : DB) :
    DB × Except String (Option EstimationResult) :=
  if roomId = "" then (db, .error "Room ID is required")
  else
    match db.getRoom roomId with
    | none => (db, .error "Room not found")
    | some _ =>
        match db.getCurrentRound roomId with
        | none => (db, .error "No active estimation round")
        | some currentRound =>
            if currentRound.isRevealed then
              (db, .error "Cards have already been revealed")
            else
              let r1 := DB.revealCardsInCurrentRound roomId db
              if r1.2 then (r1.1, .ok (calculateEstimationResult r1.1 roomId))
              else (r1.1, .error "Failed to reveal cards")

/-- One row of `getPlayerSelectionStatus`: the record deliberately carries
no card-value field. -/
structure SelectionStatus where
  playerId : String
  playerName : String
  hasSelected : Bool
  isConnected : Bool
deriving DecidableEq, Repr

/-- Embedding of `EstimationServiceImpl.getPlayerSelectionStatus`: for
every player of the room (connected or not) emits whether the current
round's cards map holds their token, never the value. -/
def getPlayerSelectionStatus (db : DB) (roomId : String) :
    List SelectionStatus :=
  if roomId = "" then []
  else
    match db.getRoom roomId with
    | none => []
    | some room =>
        let currentRound := db.getCurrentRound roomId
        room.players.map (fun player =>
          { playerId := player.id
            playerName := player.name
            hasSelected :=
              match currentRound with
              | some r => alHas r.cards player.id
              | none => false
            isConnected := player.isConnected })

end ES

/-! ## Service wrappers (`services/player-service.ts`,
`services/room-service.ts`) -/

namespace Services

/-- Embedding of `PlayerService.joinRoom`: input presence check, room
existence check, then delegation to the room-utils `joinRoom`. -/
def joinRoomService (roomId playerName freshId : String) (now : Nat)
    (db : DB) : DB × RoomUtils.JoinResult :=
  if roomId = "" || playerName = "" then
    (db, ⟨false, none, none, some "Room ID and player name are required"⟩)
  else
    match db.getRoom roomId with
    | none => (db, ⟨false, none, none, some "Room not found"⟩)
    | some _ => RoomUtils.joinRoom roomId playerName freshId now db

/-- Embedding of `RoomServiceImpl.createRoom`: validates the trimmed name,
returns an existing room of that name rather than erroring, otherwise
creates it. Thrown validation errors are the `Except.error` branch. -/
def createRoomService (roomName : String) (now : Nat) (db : DB) :
    DB × Except String Room :=
  if trimStr roomName = "" then (db, .error "Room name cannot be empty")
  else if (trimStr roomName).length > 100 then
    (db, .error "Room name cannot exceed 100 characters")
  else
    match db.getRoom (trimStr roomName) with
    | some existingRoom => (db, .ok existingRoom)
    | none =>
        let r := RoomUtils.createRoom (trimStr roomName) now db
        (r.1, .ok r.2)

/-- Embedding of `PlayerService.getPlayerRoom`: `null` for a falsy id,
otherwise the reverse-map lookup. -/
def getPlayerRoom (playerId : String) (db : DB) : Option String :=
  if playerId = "" then none else db.getPlayerRoom playerId

/-- Embedding of `PlayerService.leaveRoom`: fails for a falsy id,
otherwise delegates to the room-utils `leaveRoom`. -/
def leaveRoomService (playerId : String) (db : DB) : DB × RoomUtils.LeaveResult :=
  if playerId = "" then (db, ⟨false, none⟩) else RoomUtils.leaveRoom playerId db

/-- Embedding of `PlayerService.updateConnectionStatus`: fails for a falsy
id, otherwise delegates to `updatePlayerConnectionStatus`. -/
def updateConnectionStatus (playerId : String) (isConnected : Bool)
    (db : DB) : DB × RoomUtils.LeaveResult :=
  if playerId = "" then (db, ⟨false, none⟩)
  else RoomUtils.updatePlayerConnectionStatus playerId isConnected db

/-- Embedding of `RoomServiceImpl.addPlayer`: rejects a missing room and a
case-insensitive name conflict, otherwise adds the caller-built player. -/
def addPlayer (roomId : String) (player : Player) (db : DB) :
    DB × Option String :=
  if roomId = "" || player.id = "" then
    (db, some "Room ID and player are required")
  else
    match db.getRoom roomId with
    | none => (db, some "Room not found")
    | some room =>
        if room.players.any (fun p => lowerStr p.name = lowerStr player.name) then
          (db, some "Player name already taken in this room")
        else
          let r1 := DB.addPlayerToRoom roomId player db
          (r1.1, if r1.2 then none else some "Failed to add player to room")

end Services

/-! ## Gateway actions (`services/websocket-service.ts`)

Each handler is embedded as a function of the session store plus the
player token the socket is bound to; the socket maps themselves and the
broadcasts are connection-layer state outside the store. The lost-mapping
recovery scan of `handleStartRound` (websocket-service.ts lines 177 to
205) reconstructs gateway connection state by guessing and is modelled by
the separate connection-status transition it performs, not as part of the
start-round store action. The second component is the error message the
handler emits to the acting socket, `none` on success or silent return. -/

namespace WS

/-- Embedding of `handleJoinRoom`: input validation, auto-creation of a
missing room, then the player-service join. -/
def handleJoinRoom (roomId playerName freshId : String) (now : Nat)
    (db : DB) : DB × Option String :=
  if trimStr roomId = "" then
    (db, some "Room ID is required and must be a valid string")
  else if trimStr playerName = "" then
    (db, some "Player name is required and must be a valid string")
  else
    let sanitizedRoomId := trimStr roomId
    let sanitizedPlayerName := trimStr playerName
    if sanitizedPlayerName.length > 30 then
      (db, some "Player name must be 30 characters or less")
    else
      let afterCreate : DB × Option String :=
        match db.getRoom sanitizedRoomId with
        | some _ => (db, none)
        | none =>
            match Services.createRoomService sanitizedRoomId now db with
            | (db1, .ok _) => (db1, none)
            | (db1, .error msg) => (db1, some msg)
      match afterCreate with
      | (db1, some msg) => (db1, some msg)
      | (db1, none) =>
          let r := Services.joinRoomService sanitizedRoomId sanitizedPlayerName
            freshId now db1
          if !r.2.success || r.2.room.isNone || r.2.player.isNone then
            (r.1, some (r.2.error.getD "Failed to join room"))
          else (r.1, none)

/-- Embedding of `handleStartRound` for a socket bound to `playerId?`
(`none` when the socket-player mapping is absent and the recovery scan
found nothing). -/
def handleStartRound (playerId? : Option String) (now : Nat) (db : DB) :
    DB × Option String :=
  match playerId? with
  | none => (db, some "Player not found")
  | some playerId =>
      if playerId = "" then (db, some "Player not found")
      else
        match Services.getPlayerRoom playerId db with
        | none => (db, some "Player not in any room")
        | some roomId =>
            if roomId = "" then (db, some "Player not in any room")
            else ES.startRound roomId now db

/-- The `validCards` list of `handleSelectCard` (websocket-service.ts line
270). Its last entry is the mojibake three-character string `â˜•` (bytes
C3 A2 CB 9C E2 80 A2), not the coffee cup `☕` of the shared
`PLANNING_POKER_DECK`: the gateway therefore rejects a genuine coffee-cup
selection. -/
def validCards : List String :=
  ["0.5", "1", "2", "3", "5", "8", "13", "21", "?", "â˜•"]

/-- Embedding of `handleSelectCard`: resolves the caller's room, validates
the card against the deck, submits through the estimation service, and,
when the round is already revealed, re-runs `revealCards` to recompute
results (exceptions there are swallowed). -/
def handleSelectCard (playerId? : Option String) (cardValue : String)
    (db : DB) : DB × Option String :=
  match playerId? with
  | none => (db, some "Player session not found. Please refresh and rejoin the room.")
  | some playerId =>
    if playerId = "" then
      (db, some "Player session not found. Please refresh and rejoin the room.")
    else
      match Services.getPlayerRoom playerId db with
      | none => (db, some "You are not currently in a room. Please join a room first.")
      | some roomId =>
          if roomId = "" then
            (db, some "You are not currently in a room. Please join a room first.")
          else if cardValue = "" then
            (db, some "Card value is required and must be a valid string")
          else if cardValue ∉ validCards then
            (db, some "Invalid card value. Please select a valid card from the deck.")
          else
            match ES.submitCard roomId playerId cardValue db with
            | (db1, some msg) => (db1, some msg)
            | (db1, none) =>
                match db1.getRoom roomId with
                | none => (db1, none)
                | some room =>
                    match room.currentRound with
                    | none => (db1, none)
                    | some round =>
                        if round.isRevealed then
                          ((ES.revealCards roomId db1).1, none)
                        else (db1, none)

/-- Embedding of `handleRevealCards`. -/
def handleRevealCards (playerId? : Option String) (db : DB) :
    DB × Option String :=
  match playerId? with
  | none => (db, some "Player not found")
  | some playerId =>
      if playerId = "" then (db, some "Player not found")
      else
        match Services.getPlayerRoom playerId db with
        | none => (db, some "Player not in any room")
        | some roomId =>
          if roomId = "" then (db, some "Player not in any room")
          else
            match ES.revealCards roomId db with
            | (db1, .ok (some _)) => (db1, none)
            | (db1, .ok none) => (db1, some "Failed to reveal cards")
            | (db1, .error msg) => (db1, some msg)

/-- Embedding of `handleLeaveRoom`: all failure branches return silently
without emitting an error. -/
def handleLeaveRoom (playerId? : Option String) (db : DB) :
    DB × Option String :=
  match playerId? with
  | none => (db, none)
  | some playerId =>
      if playerId = "" then (db, none)
      else
        match Services.getPlayerRoom playerId db with
        | none => (db, none)
        | some roomId =>
            if roomId = "" then (db, none)
            else ((Services.leaveRoomService playerId db).1, none)

/-- Embedding of `handleRemovePlayer`: the target must belong to the
requesting player's room and must be disconnected; removal then goes
through the player-service leave. -/
def handleRemovePlayer (requestingPlayerId? : Option String)
    (playerId : String) (db : DB) : DB × Option String :=
  match requestingPlayerId? with
  | none => (db, some "Player not found")
  | some requestingPlayerId =>
    if requestingPlayerId = "" then (db, some "Player not found")
    else if playerId = "" then (db, some "Player ID is required")
    else
        match Services.getPlayerRoom requestingPlayerId db with
        | none => (db, some "You are not in any room")
        | some roomId =>
            if roomId = "" then (db, some "You are not in any room")
            else if Services.getPlayerRoom playerId db ≠ some roomId then
              (db, some "Player not found in your room")
            else
              match db.getRoom roomId with
              | none => (db, some "Player not found in room")
              | some room =>
                  match room.players.find? (fun p => p.id = playerId) with
                  | none => (db, some "Player not found in room")
                  | some targetPlayer =>
                      if targetPlayer.isConnected then
                        (db, some "Cannot remove connected players")
                      else
                        let r := Services.leaveRoomService playerId db
                        if r.2.success then (r.1, none)
                        else (r.1, some "Failed to remove player from room")

/-- Embedding of `handleDisconnect`: marks the socket's player
disconnected (never emits an error). -/
def handleDisconnect (playerId? : Option String) (db : DB) :
    DB × Option String :=
  match playerId? with
  | none => (db, none)
  | some playerId =>
      if playerId = "" then (db, none)
      else ((Services.updateConnectionStatus playerId false db).1, none)

/-- The inbound client actions of the external interface, with the fresh
token and clock inputs the handlers draw made explicit. -/
inductive Action where
  | join (roomId playerName freshId : String) (now : Nat)
  | startRound (playerId? : Option String) (now : Nat)
  | selectCard (playerId? : Option String) (cardValue : String)
  | revealCards (playerId? : Option String)
  | leaveRoom (playerId? : Option String)
  | removePlayer (requestingPlayerId? : Option String) (playerId : String)

/-- Dispatch of one inbound client action to its handler. -/
def applyAction : Action → DB → DB × Option String
  | .join roomId playerName freshId now => handleJoinRoom roomId playerName freshId now
  | .startRound playerId? now => handleStartRound playerId? now
  | .selectCard playerId? cardValue => handleSelectCard playerId? cardValue
  | .revealCards playerId? => handleRevealCards playerId?
  | .leaveRoom playerId? => handleLeaveRoom playerId?
  | .removePlayer requestingPlayerId? playerId => handleRemovePlayer requestingPlayerId? playerId

end WS

/-! ## Basic laws of the embedded map and string operations -/

theorem alGet_cons {α β : Type} [DecidableEq α] (e : α × β) (es : List (α × β))
    (k : α) : alGet (e :: es) k = if e.1 = k then some e.2 else alGet es k := by
  by_cases h : e.1 = k <;> simp [alGet, List.find?, h]

theorem alGet_alSet {α β : Type} [DecidableEq α] (m : List (α × β)) (k : α)
    (v : β) (k2 : α) :
    alGet (alSet m k v) k2 = if k2 = k then some v else alGet m k2 := by
  induction m with
  | nil =>
      by_cases h : k2 = k
      · subst h; simp [alSet, alGet, List.find?]
      · have h3 : ¬(k = k2) := fun hc => h hc.symm
        simp [alSet, alGet, List.find?, h, h3]
  | cons e es ih =>
      by_cases hek : e.1 = k
      · show alGet (if e.1 = k then (k, v) :: es else e :: alSet es k v) k2 = _
        rw [if_pos hek, alGet_cons, alGet_cons]
        by_cases h : k2 = k
        · simp [h]
        · have h3 : ¬(k = k2) := fun hc => h hc.symm
          have h4 : ¬(e.1 = k2) := by rw [hek]; exact h3
          simp [h, h3, h4]
      · show alGet (if e.1 = k then (k, v) :: es else e :: alSet es k v) k2 = _
        rw [if_neg hek, alGet_cons, alGet_cons, ih]
        by_cases h2 : e.1 = k2
        · have h : ¬(k2 = k) := fun hc => hek (h2.trans hc)
          simp [h2, h]
        · simp [h2]

theorem alDel_cons {α β : Type} [DecidableEq α] (e : α × β) (es : List (α × β))
    (k : α) :
    alDel (e :: es) k = if e.1 = k then alDel es k else e :: alDel es k := by
  by_cases h : e.1 = k <;> simp [alDel, List.filter_cons, h]

theorem alGet_alDel {α β : Type} [DecidableEq α] (m : List (α × β)) (k k2 : α) :
    alGet (alDel m k) k2 = if k2 = k then none else alGet m k2 := by
  induction m with
  | nil => by_cases h : k2 = k <;> simp [alDel, alGet, List.find?, h]
  | cons e es ih =>
      rw [alDel_cons]
      by_cases hek : e.1 = k
      · rw [if_pos hek, ih, alGet_cons]
        by_cases hk2 : k2 = k
        · simp [hk2]
        · have h4 : ¬(e.1 = k2) := by
            rw [hek]; exact fun hc => hk2 hc.symm
          simp [hk2, h4]
      · rw [if_neg hek, alGet_cons, ih, alGet_cons]
        by_cases h2 : e.1 = k2
        · have hk2 : ¬(k2 = k) := fun hc => hek (h2.trans hc)
          simp [h2, hk2]
        · simp [h2]

theorem mem_alSet {α β : Type} [DecidableEq α] {m : List (α × β)} {k : α}
    {v : β} {e : α × β} (he : e ∈ alSet m k v) : e ∈ m ∨ e = (k, v) := by
  induction m with
  | nil =>
      right
      simpa [alSet] using he
  | cons e0 es ih =>
      by_cases h : e0.1 = k
      · rw [show alSet (e0 :: es) k v = (k, v) :: es from by rw [alSet, if_pos h],
          List.mem_cons] at he
        rcases he with he1 | he1
        · right; exact he1
        · left; exact List.mem_cons_of_mem _ he1
      · rw [show alSet (e0 :: es) k v = e0 :: alSet es k v from by rw [alSet, if_neg h],
          List.mem_cons] at he
        rcases he with he1 | he1
        · left; rw [he1]; exact List.mem_cons_self _ _
        · rcases ih he1 with h1 | h1
          · left; exact List.mem_cons_of_mem _ h1
          · right; exact h1

theorem dropWhile_dropWhile {α : Type} (p : α → Bool) (l : List α) :
    (l.dropWhile p).dropWhile p = l.dropWhile p := by
  induction l with
  | nil => rfl
  | cons x xs ih =>
      by_cases h : p x
      · simp [List.dropWhile_cons, h, ih]
      · simp [List.dropWhile_cons, h]

theorem length_dropWhile_le {α : Type} (p : α → Bool) (l : List α) :
    (l.dropWhile p).length ≤ l.length := by
  induction l with
  | nil => simp
  | cons x xs ih =>
      rw [List.dropWhile_cons]
      by_cases h : p x
      · simp only [h, if_true]
        exact le_trans ih (Nat.le_succ _)
      · simp [h]

theorem dropTrailingWs_cons (c : Char) (t : List Char) :
    dropTrailingWs (c :: t) =
      if (dropTrailingWs t).isEmpty && c.isWhitespace then []
      else c :: dropTrailingWs t := rfl

theorem dropTrailingWs_idem (l : List Char) :
    dropTrailingWs (dropTrailingWs l) = dropTrailingWs l := by
  induction l with
  | nil => rfl
  | cons c t ih =>
      rw [dropTrailingWs_cons]
      by_cases h : (dropTrailingWs t).isEmpty && c.isWhitespace
      · rw [if_pos h]; rfl
      · rw [if_neg h, dropTrailingWs_cons, ih, if_neg h]

theorem dropWhile_ws_dropTrailingWs (l : List Char)
    (h : l.dropWhile Char.isWhitespace = l) :
    (dropTrailingWs l).dropWhile Char.isWhitespace = dropTrailingWs l := by
  cases l with
  | nil => rfl
  | cons c t =>
      have hc : c.isWhitespace = false := by
        by_cases hc' : c.isWhitespace
        · exfalso
          rw [List.dropWhile_cons, if_pos hc'] at h
          have hlen := length_dropWhile_le Char.isWhitespace t
          rw [h] at hlen
          simp at hlen
        · simpa using hc'
      rw [dropTrailingWs_cons]
      by_cases h2 : (dropTrailingWs t).isEmpty && c.isWhitespace
      · rw [if_pos h2]; rfl
      · rw [if_neg h2, List.dropWhile_cons, hc]
        simp

theorem trimChars_idem (l : List Char) : trimChars (trimChars l) = trimChars l := by
  unfold trimChars
  rw [dropWhile_ws_dropTrailingWs (l.dropWhile Char.isWhitespace)
      (dropWhile_dropWhile Char.isWhitespace l),
    dropTrailingWs_idem]

theorem trimStr_idem (s : String) : trimStr (trimStr s) = trimStr s := by
  show (⟨trimChars (trimChars s.data)⟩ : String) = ⟨trimChars s.data⟩
  rw [trimChars_idem]

theorem length_replaceFirstPlayer (pid : String) (f : Player → Player)
    (l : List Player) :
    (DB.replaceFirstPlayer pid f l).length = l.length := by
  induction l with
  | nil => rfl
  | cons p ps ih =>
      by_cases h : p.id = pid <;>
        simp [DB.replaceFirstPlayer, h, ih]

theorem map_replaceFirstPlayer {β : Type} (pid : String) (f : Player → Player)
    (g : Player → β) (hg : ∀ p, g (f p) = g p) (l : List Player) :
    (DB.replaceFirstPlayer pid f l).map g = l.map g := by
  induction l with
  | nil => rfl
  | cons p ps ih =>
      by_cases h : p.id = pid <;>
        simp [DB.replaceFirstPlayer, h, ih, hg]

theorem find?_id_replaceFirstPlayer (pid : String) (f : Player → Player)
    (hf : ∀ p, (f p).id = p.id) (l : List Player) :
    (DB.replaceFirstPlayer pid f l).find? (fun p => p.id = pid) =
      ((l.find? (fun p => p.id = pid)).map f) := by
  induction l with
  | nil => rfl
  | cons p ps ih =>
      by_cases h : p.id = pid
      · simp [DB.replaceFirstPlayer, h, List.find?, hf]
      · simp [DB.replaceFirstPlayer, h, List.find?, ih]

/-! ## Concrete fixtures used by the closed theorems -/

/-- A room whose single connected member `p1` has submitted `"5"` and whose
round is already revealed. -/
def roomRevealed : Room :=
  { id := "r", name := "r", createdAt := 0
    players := [{ id := "p1", name := "Alice", isConnected := true, joinedAt := 0 }]
    currentRound := some { cards := [("p1", "5")], isRevealed := true, startedAt := 0 } }

/-- Store holding only `roomRevealed`. -/
def dbRevealed : DB := ⟨[("r", roomRevealed)], [("p1", "r")]⟩

/-! ## Claims -/

/-- C1. The specification says the engine permits submissions after reveal;
the engine `EstimationServiceImpl.submitCard` in fact throws
`Cannot submit card after cards have been revealed` for a room member
submitting a deck value into a revealed round, recording nothing. The
engine's own test suite (estimation-service.test.ts, `should allow card
changes after cards are revealed for real-time collaboration`) expects the
call not to throw, so the code contradicts its own tests here. -/
theorem c1_submit_after_reveal_rejected :
    ES.submitCard "r" "p1" "3" dbRevealed =
      (dbRevealed, some "Cannot submit card after cards have been revealed") := by
  decide

/-- C2. The specification says a second reveal does not error and is a
no-op; the engine `EstimationServiceImpl.revealCards` in fact throws
`Cards have already been revealed` on an already-revealed round. The
engine's own test suite (estimation-service.test.ts, `should allow
re-revealing cards for real-time collaboration`) expects the repeated call
not to throw, so the code contradicts its own tests here. -/
theorem c2_reveal_again_rejected :
    ES.revealCards "r" dbRevealed =
      (dbRevealed, Except.error "Cards have already been revealed") := by
  rfl

/-- A room whose single member `p1` is disconnected and holds a submission
in an active unrevealed round. -/
def roomInactive : Room :=
  { id := "r2", name := "r2", createdAt := 0
    players := [{ id := "p1", name := "Bob", isConnected := false, joinedAt := 0 }]
    currentRound := some { cards := [("p1", "5")], isRevealed := false, startedAt := 0 } }

/-- Store holding only `roomInactive`. -/
def dbInactive : DB := ⟨[("r2", roomInactive)], [("p1", "r2")]⟩

/-- C10. `removePlayerFromRoom` never checks that the token belongs to the
named room: for an existing room and a non-member token it still returns
`true`, leaves the participant list unchanged, and unconditionally deletes
the token's reverse mapping. -/
theorem c10_remove_nonmember_returns_true (db : DB) (roomId pid : String)
    (room : Room) (hroom : db.getRoom roomId = some room)
    (hmem : ∀ p ∈ room.players, p.id ≠ pid) :
    (DB.removePlayerFromRoom roomId pid db).2 = true ∧
    ((DB.removePlayerFromRoom roomId pid db).1.getRoom roomId).map (·.players) =
      some room.players ∧
    (DB.removePlayerFromRoom roomId pid db).1.getPlayerRoom pid = none := by
  have hfilter : room.players.filter (fun p => p.id ≠ pid) = room.players :=
    List.filter_eq_self.mpr (fun p hp => by simpa using hmem p hp)
  simp only [DB.removePlayerFromRoom, hroom]
  cases hcr : room.currentRound with
  | none =>
      simp only [hcr]
      refine ⟨?_, ?_, ?_⟩
      · trivial
      · show (alGet (alSet db.rooms roomId _) roomId).map (·.players) = _
        rw [alGet_alSet]
        simpa using hfilter
      · show alGet (alDel db.playerRoomMap pid) pid = none
        rw [alGet_alDel]
        simp
  | some round =>
      simp only [hcr]
      refine ⟨?_, ?_, ?_⟩
      · trivial
      · show (alGet (alSet db.rooms roomId _) roomId).map (·.players) = _
        rw [alGet_alSet]
        simpa using hfilter
      · show alGet (alDel db.playerRoomMap pid) pid = none
        rw [alGet_alDel]
        simp

/-- Witness for C10 at a concrete store: removing the unknown token `p2`
from the room `r` succeeds, keeps the player list, and clears the reverse
map entry for `p2`. -/
theorem c10_witness :
    (DB.removePlayerFromRoom "r" "p2" dbRevealed).2 = true ∧
    ((DB.removePlayerFromRoom "r" "p2" dbRevealed).1.getRoom "r").map (·.players) =
      some roomRevealed.players ∧
    (DB.removePlayerFromRoom "r" "p2" dbRevealed).1.getPlayerRoom "p2" = none :=
  c10_remove_nonmember_returns_true dbRevealed "r" "p2" roomRevealed (by decide)
    (by decide)

/-- C7. The engine `startRound` rejects a room with zero participants with
an error and no state change, and for any room with at least one
participant (connected or not) replaces whatever round existed by a fresh
one with an empty submission map and `isRevealed = false`, leaving the
participant list unchanged. -/
theorem c7_startRound_spec (db : DB) (roomId : String) (now : Nat)
    (room : Room) (hne : roomId ≠ "") (hroom : db.getRoom roomId = some room) :
    (room.players = [] →
      ES.startRound roomId now db = (db, some "Cannot start round with no players")) ∧
    (room.players ≠ [] →
      (ES.startRound roomId now db).2 = none ∧
      ((ES.startRound roomId now db).1.getRoom roomId).map (·.currentRound) =
        some (some { cards := [], isRevealed := false, startedAt := now }) ∧
      ((ES.startRound roomId now db).1.getRoom roomId).map (·.players) =
        some room.players) := by
  simp only [ES.startRound, if_neg hne, hroom]
  constructor
  · intro hemp
    simp [hemp]
  · intro hne2
    have hisEmpty : room.players.isEmpty = false := by
      cases hp : room.players with
      | nil => exact absurd hp hne2
      | cons a l => rfl
    simp only [hisEmpty, Bool.false_eq_true, if_false, DB.setCurrentRound, hroom]
    refine ⟨?_, ?_, ?_⟩
    · trivial
    · show (alGet (alSet db.rooms roomId _) roomId).map (·.currentRound) = _
      rw [alGet_alSet]
      simp
    · show (alGet (alSet db.rooms roomId _) roomId).map (·.players) = _
      rw [alGet_alSet]
      simp

/-- Witness for C7 at a concrete store: starting a round over the revealed
one-player room succeeds and installs a fresh empty unrevealed round. -/
theorem c7_witness :
    (ES.startRound "r" 7 dbRevealed).2 = none ∧
    ((ES.startRound "r" 7 dbRevealed).1.getRoom "r").map (·.currentRound) =
      some (some { cards := [], isRevealed := false, startedAt := 7 }) ∧
    ((ES.startRound "r" 7 dbRevealed).1.getRoom "r").map (·.players) =
      some roomRevealed.players :=
  (c7_startRound_spec dbRevealed "r" 7 roomRevealed (by decide) (by decide)).2
    (by decide)

/-- C3, counterexample. In the store `dbRevealed` the round is revealed and
member `p1` holds the submission `"5"`; removing `p1` deletes them from the
participant list but ALSO deletes their submission from the revealed
round's map, where the claim says the submission remains present. -/
theorem c3_counterexample :
    ((DB.removePlayerFromRoom "r" "p1" dbRevealed).1.getRoom "r").map (·.players) =
      some [] ∧
    DB.getCurrentRound (DB.removePlayerFromRoom "r" "p1" dbRevealed).1 "r" =
      some { cards := [], isRevealed := true, startedAt := 0 } := by decide

/-- C3, amended. Removing a participant deletes them from the participant
list and, whenever any round is active, deletes their submission from it
regardless of the revealed flag; the unrevealed-only guard exists in the
disconnect path (`updatePlayerInRoom`), not in removal. -/
theorem c3_remove_always_deletes_submission (db : DB) (roomId pid : String)
    (room : Room) (round : EstimationRound)
    (hroom : db.getRoom roomId = some room)
    (hround : room.currentRound = some round) :
    (DB.removePlayerFromRoom roomId pid db).2 = true ∧
    ∃ room2,
      (DB.removePlayerFromRoom roomId pid db).1.getRoom roomId = some room2 ∧
      room2.players = room.players.filter (fun p => p.id ≠ pid) ∧
      room2.currentRound = some { round with cards := alDel round.cards pid } ∧
      alGet (alDel round.cards pid) pid = none := by
  simp only [DB.removePlayerFromRoom, hroom, hround]
  constructor
  · trivial
  refine ⟨{ room with players := room.players.filter (fun p => p.id ≠ pid), currentRound := some { round with cards := alDel round.cards pid } }, ?_, rfl, rfl, ?_⟩
  · show alGet (alSet db.rooms roomId _) roomId = _
    rw [alGet_alSet]
    simp
  · rw [alGet_alDel]
    simp

/-- Witness for C3's amended statement at the concrete store `dbInactive`:
removal in a round-active room filters the player out and clears their
card. -/
theorem c3_witness :
    (DB.removePlayerFromRoom "r2" "p1" dbInactive).2 = true ∧
    ∃ room2,
      (DB.removePlayerFromRoom "r2" "p1" dbInactive).1.getRoom "r2" = some room2 ∧
      room2.players = roomInactive.players.filter (fun p => p.id ≠ "p1") ∧
      room2.currentRound =
        some { cards := alDel [("p1", "5")] "p1", isRevealed := false, startedAt := 0 } ∧
      alGet (alDel ([("p1", "5")] : List (String × String)) "p1") "p1" = none :=
  c3_remove_always_deletes_submission dbInactive "r2" "p1" roomInactive
    { cards := [("p1", "5")], isRevealed := false, startedAt := 0 }
    (by decide) (by decide)

/-- C6, counterexample. `dbInactive` holds an inactive participant `p1`
named `Bob` with a recorded submission in an unrevealed active round;
rejoining as `Bob` succeeds and reconnects `p1`, but the submission is
still recorded afterwards — the claim's final conjunct (no recorded
submission in any unrevealed active round after the rejoin) is false. -/
theorem c6_counterexample :
    (RoomUtils.joinRoom "r2" "Bob" "fresh" 1 dbInactive).2.success = true ∧
    DB.getCurrentRound (RoomUtils.joinRoom "r2" "Bob" "fresh" 1 dbInactive).1 "r2" =
      some { cards := [("p1", "5")], isRevealed := false, startedAt := 0 } := by decide

/-- The patch the reconnect branch of `updatePlayerInRoom` applies when
called with `{isConnected: true}`. -/
def reconnectPatch : Player → Player := fun q =>
  { q with isConnected := (some true).getD q.isConnected }

/-- The room produced by the reconnect branch of `joinRoom`: the first
player holding the token is flipped to connected, everything else kept. -/
def reconnectRoom (room : Room) (pid : String) : Room :=
  { room with players := DB.replaceFirstPlayer pid reconnectPatch room.players }

/-- C6, amended. Joining a room holding an inactive participant whose name
matches case-insensitively succeeds, returns that same participant's token
with connectivity flipped to active, appends no entry (the participant
list keeps its length), and leaves the current round — submission map
included — exactly as it was: any clearing of submissions happens at
disconnect time, not at rejoin. -/
theorem c6_join_reconnect_preserves_round (db : DB)
    (roomId n freshId : String) (now : Nat) (room : Room) (p : Player)
    (hroom : db.getRoom roomId = some room)
    (hfind : room.players.find? (fun q => lowerStr q.name = lowerStr n) = some p)
    (hcon : p.isConnected = false) :
    (RoomUtils.joinRoom roomId n freshId now db).2.success = true ∧
    (∃ q, (RoomUtils.joinRoom roomId n freshId now db).2.player = some q ∧
      q.id = p.id ∧ q.isConnected = true) ∧
    (∃ room2, (RoomUtils.joinRoom roomId n freshId now db).1.getRoom roomId =
        some room2 ∧
      room2.players.length = room.players.length ∧
      room2.currentRound = room.currentRound) := by
  have hpmem : p ∈ room.players := List.mem_of_find?_eq_some hfind
  have hall : room.players.all (fun q => q.id ≠ p.id) = false := by
    rw [List.all_eq_false]
    exact ⟨p, hpmem, by simp⟩
  obtain ⟨p0, hp0⟩ : ∃ p0, room.players.find? (fun q => q.id = p.id) = some p0 :=
    Option.isSome_iff_exists.mp
      (by rw [List.find?_isSome]; exact ⟨p, hpmem, by simp⟩)
  have hp0id : p0.id = p.id := by simpa using List.find?_some hp0
  have hupd : DB.updatePlayerInRoom roomId p.id (some true) db =
      ({ db with rooms := alSet db.rooms roomId (reconnectRoom room p.id) }, true) := by
    simp only [DB.updatePlayerInRoom, hroom, hall, Bool.false_eq_true, if_false]
    rfl
  have hget1 : DB.getRoom
      { db with rooms := alSet db.rooms roomId (reconnectRoom room p.id) } roomId =
      some (reconnectRoom room p.id) := by
    show alGet (alSet db.rooms roomId _) roomId = _
    rw [alGet_alSet]
    simp
  have hfind1 : (reconnectRoom room p.id).players.find? (fun q => q.id = p.id) =
      some { p0 with isConnected := true } := by
    have h1 := find?_id_replaceFirstPlayer p.id reconnectPatch
      (fun q => rfl) room.players
    rw [hp0] at h1
    exact h1
  have hjoin : RoomUtils.joinRoom roomId n freshId now db =
      ({ db with rooms := alSet db.rooms roomId (reconnectRoom room p.id) },
       ⟨true, some (reconnectRoom room p.id),
         some { p0 with isConnected := true }, none⟩) := by
    simp only [RoomUtils.joinRoom, hroom, hfind, hcon, Bool.false_eq_true,
      if_false, hupd, hget1, Option.bind, hfind1]
    simp
  rw [hjoin]
  refine ⟨rfl, ⟨{ p0 with isConnected := true }, rfl, ?_, rfl⟩,
    ⟨reconnectRoom room p.id, ?_, ?_, rfl⟩⟩
  · simpa using hp0id
  · exact hget1
  · show (DB.replaceFirstPlayer p.id reconnectPatch room.players).length =
      room.players.length
    exact length_replaceFirstPlayer _ _ _

/-- Witness for C6's amended statement at the concrete store `dbInactive`:
rejoining as `Bob` reconnects token `p1` and leaves the unrevealed round,
submission included, untouched. -/
theorem c6_witness :
    (RoomUtils.joinRoom "r2" "Bob" "fresh" 1 dbInactive).2.success = true ∧
    (∃ q, (RoomUtils.joinRoom "r2" "Bob" "fresh" 1 dbInactive).2.player = some q ∧
      q.id = "p1" ∧ q.isConnected = true) ∧
    (∃ room2, (RoomUtils.joinRoom "r2" "Bob" "fresh" 1 dbInactive).1.getRoom "r2" =
        some room2 ∧
      room2.players.length = roomInactive.players.length ∧
      room2.currentRound = roomInactive.currentRound) :=
  c6_join_reconnect_preserves_round dbInactive "r2" "Bob" "fresh" 1 roomInactive
    { id := "p1", name := "Bob", isConnected := false, joinedAt := 0 }
    (by decide) (by decide) (by decide)

/-- Rounding to two decimals maps zero to zero. -/
theorem round2_zero : round2 0 = 0 := by norm_num [round2]

/-- C8. The computed average is the arithmetic mean of the numeric
submissions only, rounded to two decimals, and 0 when no submission is
numeric; on the concrete submissions 5, 8, 3 the statistics are average
5.33, median "5", range ["3", "5", "8"] in deck order, and hasVariance
true. -/
theorem c8_statistics_average_and_example :
    (∀ l : List String, (calculateStatistics l).average =
      if numericCardsOf l = [] then 0
      else round2 ((numericCardsOf l).sum / ((numericCardsOf l).length : ℚ))) ∧
    calculateStatistics ["5", "8", "3"] =
      { average := 533/100, median := "5", range := ["3", "5", "8"],
        hasVariance := true } := by
  constructor
  · intro l
    by_cases h : numericCardsOf l = []
    · rw [if_pos h]
      simp only [calculateStatistics, h, List.length_nil, ne_eq, not_true_eq_false,
        if_false]
      split <;> simp [round2_zero]
    · have h3 : (numericCardsOf l).length ≠ 0 := by
        simpa [List.length_eq_zero] using h
      rw [if_neg h]
      simp only [calculateStatistics, ne_eq, h3, not_false_eq_true, if_true]
  · have hnum : numericCardsOf ["5", "8", "3"] = [5, 8, 3] := by decide
    have hnn : nonNumericCardsOf ["5", "8", "3"] = [] := by decide
    have hsort : sortNums [(5:ℚ), 8, 3] = [3, 5, 8] := by decide
    have hmin : List.foldl min (([5, 8, 3] : List ℚ).getD 0 0) [5, 8, 3] = 3 := by
      decide
    have hmax : List.foldl max (([5, 8, 3] : List ℚ).getD 0 0) [5, 8, 3] = 8 := by
      decide
    have hrange : sortCardValuesByDeckOrder (dedupFirst ["5", "8", "3"]) =
        ["3", "5", "8"] := by decide
    have hms : ratToString ((5:ℚ)) = "5" := by decide
    simp only [calculateStatistics, hnum, hnn, hsort, hmin, hmax, hrange]
    norm_num [round2, Statistics.mk.injEq, hms, List.getD, List.sum]

/-- Two stores agreeing on a room's participants and on which tokens have a
submission, with different submitted values. -/
def db9a : DB :=
  ⟨[("r9", { id := "r9", name := "r9", createdAt := 0
             players := [{ id := "p1", name := "Ann", isConnected := true, joinedAt := 0 }]
             currentRound := some { cards := [("p1", "5")], isRevealed := false, startedAt := 0 } })],
   [("p1", "r9")]⟩

/-- Companion store to `db9a` with the same submission key set but a
different submitted value. -/
def db9b : DB :=
  ⟨[("r9", { id := "r9", name := "r9", createdAt := 0
             players := [{ id := "p1", name := "Ann", isConnected := true, joinedAt := 0 }]
             currentRound := some { cards := [("p1", "13")], isRevealed := false, startedAt := 0 } })],
   [("p1", "r9")]⟩

/-- Reduction of `getPlayerSelectionStatus` for an existing room, with the
round check expressed through `Option.elim`. -/
theorem getPlayerSelectionStatus_some (db : DB) (roomId : String) (room : Room)
    (hrid : roomId ≠ "") (hroom : db.getRoom roomId = some room) :
    ES.getPlayerSelectionStatus db roomId = room.players.map (fun player =>
      { playerId := player.id
        playerName := player.name
        hasSelected := (DB.getCurrentRound db roomId).elim false
          (fun r => alHas r.cards player.id)
        isConnected := player.isConnected }) := by
  simp only [ES.getPlayerSelectionStatus, if_neg hrid, hroom]
  apply List.map_congr_left
  intro player _
  cases hcr : DB.getCurrentRound db roomId <;> simp [Option.elim]

/-- C9. `getPlayerSelectionStatus` depends only on the participant list and
the key set of the submission map, never on the submitted values: two
stores agreeing on those produce identical outputs. The output row type
`SelectionStatus` carries only (token, name, hasSelected, isConnected) and
no value field. -/
theorem c9_selectionStatus_value_independent (db1 db2 : DB) (roomId : String)
    (hplayers : (db1.getRoom roomId).map (·.players) =
      (db2.getRoom roomId).map (·.players))
    (hkeys : ∀ pid : String,
      (DB.getCurrentRound db1 roomId).elim false (fun r => alHas r.cards pid) =
      (DB.getCurrentRound db2 roomId).elim false (fun r => alHas r.cards pid)) :
    ES.getPlayerSelectionStatus db1 roomId =
      ES.getPlayerSelectionStatus db2 roomId := by
  by_cases hrid : roomId = ""
  · simp [ES.getPlayerSelectionStatus, hrid]
  · cases h1 : db1.getRoom roomId with
    | none =>
        cases h2 : db2.getRoom roomId with
        | none =>
            simp [ES.getPlayerSelectionStatus, if_neg hrid, h1, h2]
        | some r2 => rw [h1, h2] at hplayers; simp at hplayers
    | some r1 =>
        cases h2 : db2.getRoom roomId with
        | none => rw [h1, h2] at hplayers; simp at hplayers
        | some r2 =>
            rw [h1, h2] at hplayers
            have hp : r1.players = r2.players := by simpa using hplayers
            rw [getPlayerSelectionStatus_some db1 roomId r1 hrid h1,
              getPlayerSelectionStatus_some db2 roomId r2 hrid h2, hp]
            apply List.map_congr_left
            intro player _
            rw [hkeys player.id]

/-- Witness for C9: the two concrete stores hold different submitted values
under the same key set, and the selection-status outputs coincide. -/
theorem c9_witness :
    DB.getCurrentRound db9a "r9" ≠ DB.getCurrentRound db9b "r9" ∧
    ES.getPlayerSelectionStatus db9a "r9" = ES.getPlayerSelectionStatus db9b "r9" :=
  ⟨by decide,
   c9_selectionStatus_value_independent db9a db9b "r9" (by decide)
     (fun pid => by
       by_cases h : pid = "p1"
       · simp [DB.getCurrentRound, DB.getRoom, db9a, db9b, alHas, alGet,
           List.find?, h]
       · have h2 : ¬("p1" = pid) := fun hc => h hc.symm
         simp [DB.getCurrentRound, DB.getRoom, db9a, db9b, alHas, alGet,
           List.find?, h, h2])⟩

/-! ## Failure of a store mutator leaves the store untouched -/

theorem setCurrentRound_false_unchanged (roomId : String)
    (round : Option EstimationRound) (db : DB)
    (h : (DB.setCurrentRound roomId round db).2 = false) :
    (DB.setCurrentRound roomId round db).1 = db := by
  unfold DB.setCurrentRound at h ⊢
  cases hroom : db.getRoom roomId <;> simp [hroom] at h ⊢

theorem addCardToCurrentRound_false_unchanged (roomId pid v : String) (db : DB)
    (h : (DB.addCardToCurrentRound roomId pid v db).2 = false) :
    (DB.addCardToCurrentRound roomId pid v db).1 = db := by
  unfold DB.addCardToCurrentRound at h ⊢
  cases hroom : db.getRoom roomId with
  | none => simp [hroom]
  | some room =>
      cases hcr : room.currentRound <;> simp [hroom, hcr] at h ⊢

theorem revealCards_false_unchanged (roomId : String) (db : DB)
    (h : (DB.revealCardsInCurrentRound roomId db).2 = false) :
    (DB.revealCardsInCurrentRound roomId db).1 = db := by
  unfold DB.revealCardsInCurrentRound at h ⊢
  cases hroom : db.getRoom roomId with
  | none => simp [hroom]
  | some room =>
      cases hcr : room.currentRound <;> simp [hroom, hcr] at h ⊢

theorem removePlayerFromRoom_false_unchanged (roomId pid : String) (db : DB)
    (h : (DB.removePlayerFromRoom roomId pid db).2 = false) :
    (DB.removePlayerFromRoom roomId pid db).1 = db := by
  unfold DB.removePlayerFromRoom at h ⊢
  cases hroom : db.getRoom roomId <;> simp [hroom] at h ⊢

theorem updatePlayerInRoom_false_unchanged (roomId pid : String)
    (c : Option Bool) (db : DB)
    (h : (DB.updatePlayerInRoom roomId pid c db).2 = false) :
    (DB.updatePlayerInRoom roomId pid c db).1 = db := by
  unfold DB.updatePlayerInRoom at h ⊢
  cases hroom : db.getRoom roomId with
  | none => simp [hroom]
  | some room =>
      simp only [hroom] at h ⊢
      by_cases hall : (room.players.all (fun p => p.id ≠ pid)) = true
      · rw [if_pos hall]
      · rw [if_neg hall] at h
        simp at h

theorem leaveRoom_fail_unchanged (pid : String) (db : DB)
    (h : (RoomUtils.leaveRoom pid db).2.success = false) :
    (RoomUtils.leaveRoom pid db).1 = db := by
  unfold RoomUtils.leaveRoom at h ⊢
  cases hmap : db.getPlayerRoom pid with
  | none => simp [hmap]
  | some roomId =>
      simp only [hmap] at h ⊢
      exact removePlayerFromRoom_false_unchanged roomId pid db h

theorem leaveRoomService_fail_unchanged (pid : String) (db : DB)
    (h : (Services.leaveRoomService pid db).2.success = false) :
    (Services.leaveRoomService pid db).1 = db := by
  unfold Services.leaveRoomService at h ⊢
  by_cases hpid : pid = ""
  · simp [hpid]
  · simp only [if_neg hpid] at h ⊢
    exact leaveRoom_fail_unchanged pid db h

/-! ## Engine errors leave the store untouched -/

theorem es_startRound_err_unchanged (roomId : String) (now : Nat) (db : DB)
    (msg : String) (h : (ES.startRound roomId now db).2 = some msg) :
    (ES.startRound roomId now db).1 = db := by
  unfold ES.startRound at h ⊢
  by_cases h0 : roomId = ""
  · simp [h0]
  · simp only [if_neg h0] at h ⊢
    cases hroom : db.getRoom roomId with
    | none => simp [hroom]
    | some room =>
        by_cases hemp : room.players.isEmpty
        · simp [hroom, hemp]
        · simp only [hroom, hemp, Bool.false_eq_true, if_false] at h ⊢
          by_cases hr : (DB.setCurrentRound roomId
              (some { cards := [], isRevealed := false, startedAt := now }) db).2
          · rw [if_pos hr] at h
            cases h
          · exact setCurrentRound_false_unchanged _ _ _ (by simpa using hr)

theorem es_submitCard_err_unchanged (roomId pid v : String) (db : DB)
    (msg : String) (h : (ES.submitCard roomId pid v db).2 = some msg) :
    (ES.submitCard roomId pid v db).1 = db := by
  unfold ES.submitCard at h ⊢
  by_cases h0 : roomId = "" || pid = ""
  · simp [h0]
  · simp only [h0, Bool.false_eq_true, if_false] at h ⊢
    by_cases h1 : v ∈ PLANNING_POKER_DECK
    · simp only [h1, not_true_eq_false, if_false] at h ⊢
      cases hroom : db.getRoom roomId with
      | none => simp [hroom]
      | some room =>
          simp only [hroom] at h ⊢
          by_cases hall : (room.players.all (fun p => p.id ≠ pid)) = true
          · rw [if_pos hall]
          · rw [if_neg hall] at h ⊢
            cases hcr : db.getCurrentRound roomId with
            | none => simp [hcr]
            | some round =>
                simp only [hcr] at h ⊢
                by_cases hrev : round.isRevealed
                · rw [if_pos hrev]
                · rw [if_neg hrev] at h ⊢
                  by_cases hr : (DB.addCardToCurrentRound roomId pid v db).2
                  · rw [if_pos hr] at h
                    cases h
                  · exact addCardToCurrentRound_false_unchanged _ _ _ _
                      (by simpa using hr)
    · simp [h1]

theorem es_revealCards_err_unchanged (roomId : String) (db : DB) (msg : String)
    (h : (ES.revealCards roomId db).2 = Except.error msg) :
    (ES.revealCards roomId db).1 = db := by
  unfold ES.revealCards at h ⊢
  by_cases h0 : roomId = ""
  · simp [h0]
  · simp only [if_neg h0] at h ⊢
    cases hroom : db.getRoom roomId with
    | none => simp [hroom]
    | some room =>
        simp only [hroom] at h ⊢
        cases hcr : db.getCurrentRound roomId with
        | none => simp [hcr]
        | some round =>
            simp only [hcr] at h ⊢
            by_cases hrev : round.isRevealed
            · rw [if_pos hrev]
            · rw [if_neg hrev] at h ⊢
              by_cases hr : (DB.revealCardsInCurrentRound roomId db).2
              · rw [if_pos hr] at h
                cases h
              · rw [if_neg hr]
                exact revealCards_false_unchanged _ _ (by simpa using hr)

/-! ## Shape lemmas for the join path -/

theorem addPlayerToRoom_false_unchanged (roomId : String) (player : Player)
    (db : DB) (h : (DB.addPlayerToRoom roomId player db).2 = false) :
    (DB.addPlayerToRoom roomId player db).1 = db := by
  unfold DB.addPlayerToRoom at h ⊢
  cases hroom : db.getRoom roomId <;> simp [hroom] at h ⊢

theorem addPlayerToRoom_true (roomId : String) (player : Player) (db : DB)
    (room : Room) (hroom : db.getRoom roomId = some room) :
    (DB.addPlayerToRoom roomId player db).2 = true := by
  unfold DB.addPlayerToRoom
  simp [hroom]

theorem addPlayerToRoom_getRoom (roomId : String) (player : Player) (db : DB)
    (room : Room) (hroom : db.getRoom roomId = some room) :
    (DB.addPlayerToRoom roomId player db).1.getRoom roomId =
      some { room with players := room.players ++ [player] } := by
  unfold DB.addPlayerToRoom
  simp only [hroom]
  show alGet (alSet _ roomId _) roomId = _
  rw [alGet_alSet]
  simp

theorem getRoom_set_self (db : DB) (roomId : String) (r : Room)
    (m : List (String × String)) :
    DB.getRoom ⟨alSet db.rooms roomId r, m⟩ roomId = some r := by
  show alGet (alSet db.rooms roomId r) roomId = some r
  rw [alGet_alSet]
  simp

theorem updatePlayerInRoom_true_players (roomId pid : String) (c : Option Bool)
    (db : DB) (room : Room) (hroom : db.getRoom roomId = some room)
    (h2 : (DB.updatePlayerInRoom roomId pid c db).2 = true) :
    ∃ room1,
      (DB.updatePlayerInRoom roomId pid c db).1.getRoom roomId = some room1 ∧
      room1.players = DB.replaceFirstPlayer pid
        (fun p => { p with isConnected := c.getD p.isConnected }) room.players := by
  unfold DB.updatePlayerInRoom at h2 ⊢
  simp only [hroom] at h2 ⊢
  by_cases hall : (room.players.all (fun p => p.id ≠ pid)) = true
  · rw [if_pos hall] at h2
    cases h2
  · rw [if_neg hall] at h2 ⊢
    exact ⟨_, getRoom_set_self db roomId _ _, rfl⟩

theorem joinRoom_fail_unchanged (db : DB) (roomId n freshId : String)
    (now : Nat) (h : (RoomUtils.joinRoom roomId n freshId now db).2.success = false) :
    (RoomUtils.joinRoom roomId n freshId now db).1 = db := by
  unfold RoomUtils.joinRoom at h ⊢
  cases hroom : db.getRoom roomId with
  | none => simp [hroom]
  | some room =>
      simp only [hroom] at h ⊢
      cases hfind : room.players.find? (fun p => lowerStr p.name = lowerStr n) with
      | some existingPlayer =>
          simp only [hfind] at h ⊢
          by_cases hcon : existingPlayer.isConnected = true
          · rw [if_pos hcon]
          · rw [if_neg hcon] at h ⊢
            by_cases hupd :
              (DB.updatePlayerInRoom roomId existingPlayer.id (some true) db).2 = true
            · rw [if_pos hupd] at h
              cases h
            · rw [if_neg hupd]
              exact updatePlayerInRoom_false_unchanged _ _ _ _ (by simpa using hupd)
      | none =>
          simp only [hfind] at h ⊢
          by_cases hadd : (DB.addPlayerToRoom roomId
              (RoomUtils.createPlayer n freshId now) db).2 = true
          · rw [if_pos hadd] at h
            cases h
          · rw [if_neg hadd]
            exact addPlayerToRoom_false_unchanged _ _ _ (by simpa using hadd)

theorem joinRoom_success_fields (db : DB) (roomId n freshId : String)
    (now : Nat) (h : (RoomUtils.joinRoom roomId n freshId now db).2.success = true) :
    (RoomUtils.joinRoom roomId n freshId now db).2.room.isSome = true ∧
    (RoomUtils.joinRoom roomId n freshId now db).2.player.isSome = true := by
  unfold RoomUtils.joinRoom at h ⊢
  cases hroom : db.getRoom roomId with
  | none => simp [hroom] at h
  | some room =>
      simp only [hroom] at h ⊢
      cases hfind : room.players.find? (fun p => lowerStr p.name = lowerStr n) with
      | some existingPlayer =>
          simp only [hfind] at h ⊢
          by_cases hcon : existingPlayer.isConnected = true
          · rw [if_pos hcon] at h
            cases h
          · rw [if_neg hcon] at h ⊢
            by_cases hupd :
              (DB.updatePlayerInRoom roomId existingPlayer.id (some true) db).2 = true
            · rw [if_pos hupd]
              obtain ⟨room1, hg1, hp1⟩ :=
                updatePlayerInRoom_true_players roomId existingPlayer.id (some true)
                  db room hroom hupd
              constructor
              · rw [hg1]
                rfl
              · rw [hg1]
                show ((some room1).bind (fun r => r.players.find?
                    (fun p => p.id = existingPlayer.id))).isSome = true
                rw [Option.some_bind, hp1,
                  find?_id_replaceFirstPlayer existingPlayer.id
                    (fun p => { p with isConnected := (some true).getD p.isConnected })
                    (fun q => rfl) room.players]
                have hfs : (room.players.find?
                    (fun q => q.id = existingPlayer.id)).isSome = true := by
                  rw [List.find?_isSome]
                  exact ⟨existingPlayer, List.mem_of_find?_eq_some hfind, by simp⟩
                cases hf2 : room.players.find? (fun q => q.id = existingPlayer.id) with
                | none => rw [hf2] at hfs; cases hfs
                | some p2 => rfl
            · rw [if_neg hupd] at h
              cases h
      | none =>
          simp only [hfind] at h ⊢
          by_cases hadd : (DB.addPlayerToRoom roomId
              (RoomUtils.createPlayer n freshId now) db).2 = true
          · rw [if_pos hadd]
            constructor
            · rw [addPlayerToRoom_getRoom roomId _ db room hroom]
              rfl
            · rfl
          · rw [if_neg hadd] at h
            cases h

theorem joinRoom_on_empty_room (db : DB) (roomId n freshId : String)
    (now : Nat) (room : Room) (hroom : db.getRoom roomId = some room)
    (hemp : room.players = []) :
    (RoomUtils.joinRoom roomId n freshId now db).2.success = true := by
  unfold RoomUtils.joinRoom
  simp only [hroom, hemp, List.find?_nil]
  rw [if_pos (addPlayerToRoom_true roomId _ db room hroom)]

theorem joinRoomService_fail_unchanged (roomId n freshId : String) (now : Nat)
    (db : DB)
    (h : (Services.joinRoomService roomId n freshId now db).2.success = false) :
    (Services.joinRoomService roomId n freshId now db).1 = db := by
  unfold Services.joinRoomService at h ⊢
  by_cases h0 : (roomId = "" || n = "") = true
  · rw [if_pos h0]
  · rw [if_neg h0] at h ⊢
    cases hroom : db.getRoom roomId with
    | none => simp [hroom]
    | some room =>
        simp only [hroom] at h ⊢
        exact joinRoom_fail_unchanged db roomId n freshId now h

theorem joinRoomService_success_fields (roomId n freshId : String) (now : Nat)
    (db : DB)
    (h : (Services.joinRoomService roomId n freshId now db).2.success = true) :
    (Services.joinRoomService roomId n freshId now db).2.room.isSome = true ∧
    (Services.joinRoomService roomId n freshId now db).2.player.isSome = true := by
  unfold Services.joinRoomService at h ⊢
  by_cases h0 : (roomId = "" || n = "") = true
  · rw [if_pos h0] at h
    cases h
  · rw [if_neg h0] at h ⊢
    cases hroom : db.getRoom roomId with
    | none => simp [hroom] at h
    | some room =>
        simp only [hroom] at h ⊢
        exact joinRoom_success_fields db roomId n freshId now h

theorem createRoomService_err_unchanged (roomName : String) (now : Nat)
    (db : DB) (msg : String)
    (h : (Services.createRoomService roomName now db).2 = Except.error msg) :
    (Services.createRoomService roomName now db).1 = db := by
  unfold Services.createRoomService at h ⊢
  by_cases h0 : trimStr roomName = ""
  · rw [if_pos h0]
  · rw [if_neg h0] at h ⊢
    by_cases h1 : (trimStr roomName).length > 100
    · rw [if_pos h1]
    · rw [if_neg h1] at h ⊢
      cases hex : db.getRoom (trimStr roomName) with
      | some room => rfl
      | none =>
          simp only [hex] at h
          cases h

/-! ## The computed result after a successful reveal is never `null` -/

theorem calculateEstimationResult_isSome (db : DB) (roomId : String)
    (room : Room) (round : EstimationRound)
    (hroom : db.getRoom roomId = some room)
    (hcr : room.currentRound = some round) (hrev : round.isRevealed = true) :
    (calculateEstimationResult db roomId).isSome = true := by
  unfold calculateEstimationResult
  simp only [hroom, hcr, hrev, if_true]
  split <;> rfl

theorem es_revealCards_ok_isSome (roomId : String) (db : DB)
    (res : Option EstimationResult)
    (h : (ES.revealCards roomId db).2 = Except.ok res) : res.isSome = true := by
  unfold ES.revealCards at h
  by_cases h0 : roomId = ""
  · rw [if_pos h0] at h
    cases h
  · rw [if_neg h0] at h
    cases hroom : db.getRoom roomId with
    | none => simp only [hroom] at h; cases h
    | some room =>
        simp only [hroom] at h
        cases hcr : db.getCurrentRound roomId with
        | none => simp only [hcr] at h; cases h
        | some round =>
            simp only [hcr] at h
            by_cases hrev : round.isRevealed = true
            · rw [if_pos hrev] at h
              cases h
            · rw [if_neg hrev] at h
              have hcr2 : room.currentRound = some round := by
                simpa [DB.getCurrentRound, hroom] using hcr
              have hshape : DB.revealCardsInCurrentRound roomId db =
                  ({ db with rooms := alSet db.rooms roomId ({ room with currentRound := some { round with isRevealed := true } }) }, true) := by
                unfold DB.revealCardsInCurrentRound
                simp only [hroom, hcr2]
              rw [hshape] at h
              rw [if_pos rfl] at h
              have hres : calculateEstimationResult
                  ({ db with rooms := alSet db.rooms roomId ({ room with currentRound := some { round with isRevealed := true } }) }) roomId = res := by
                simpa [Except.ok.injEq] using h
              rw [← hres]
              exact calculateEstimationResult_isSome _ roomId
                ({ room with currentRound := some { round with isRevealed := true } })
                ({ round with isRevealed := true })
                (getRoom_set_self db roomId _ _) rfl rfl

/-! ## Handler errors leave the store untouched -/

theorem handleStartRound_err_unchanged (pid? : Option String) (now : Nat)
    (db : DB) (msg : String)
    (h : (WS.handleStartRound pid? now db).2 = some msg) :
    (WS.handleStartRound pid? now db).1 = db := by
  cases pid? with
  | none => rfl
  | some pid =>
      simp only [WS.handleStartRound] at h ⊢
      by_cases hp : pid = ""
      · rw [if_pos hp]
      · rw [if_neg hp] at h ⊢
        cases hmap : Services.getPlayerRoom pid db with
        | none => simp [hmap]
        | some roomId =>
            simp only [hmap] at h ⊢
            by_cases hr0 : roomId = ""
            · rw [if_pos hr0]
            · rw [if_neg hr0] at h ⊢
              exact es_startRound_err_unchanged roomId now db msg h

theorem handleSelectCard_err_unchanged (pid? : Option String) (v : String)
    (db : DB) (msg : String)
    (h : (WS.handleSelectCard pid? v db).2 = some msg) :
    (WS.handleSelectCard pid? v db).1 = db := by
  cases pid? with
  | none => rfl
  | some pid =>
      simp only [WS.handleSelectCard] at h ⊢
      by_cases hp : pid = ""
      · rw [if_pos hp]
      · rw [if_neg hp] at h ⊢
        cases hmap : Services.getPlayerRoom pid db with
        | none => simp [hmap]
        | some roomId =>
            simp only [hmap] at h ⊢
            by_cases hr0 : roomId = ""
            · rw [if_pos hr0]
            · rw [if_neg hr0] at h ⊢
              by_cases hv0 : v = ""
              · rw [if_pos hv0]
              · rw [if_neg hv0] at h ⊢
                by_cases hvd : v ∈ WS.validCards
                · rw [if_neg (by simpa using hvd)] at h ⊢
                  rcases hsub : ES.submitCard roomId pid v db with ⟨db1, r⟩
                  simp only [hsub] at h ⊢
                  cases r with
                  | some m =>
                      have h1 : db1 = db := by
                        have := es_submitCard_err_unchanged roomId pid v db m
                          (by rw [hsub])
                        rwa [hsub] at this
                      simpa using h1
                  | none =>
                      cases hget : db1.getRoom roomId with
                      | none => simp only [hget] at h; cases h
                      | some room =>
                          simp only [hget] at h
                          cases hcr : room.currentRound with
                          | none => simp only [hcr] at h; cases h
                          | some round =>
                              simp only [hcr] at h
                              by_cases hrev : round.isRevealed = true
                              · rw [if_pos hrev] at h
                                cases h
                              · rw [if_neg hrev] at h
                                cases h
                · rw [if_pos (by simpa using hvd)]

theorem handleRevealCards_err_unchanged (pid? : Option String) (db : DB)
    (msg : String) (h : (WS.handleRevealCards pid? db).2 = some msg) :
    (WS.handleRevealCards pid? db).1 = db := by
  cases pid? with
  | none => rfl
  | some pid =>
      simp only [WS.handleRevealCards] at h ⊢
      by_cases hp : pid = ""
      · rw [if_pos hp]
      · rw [if_neg hp] at h ⊢
        cases hmap : Services.getPlayerRoom pid db with
        | none => simp [hmap]
        | some roomId =>
            simp only [hmap] at h ⊢
            by_cases hr0 : roomId = ""
            · rw [if_pos hr0]
            · rw [if_neg hr0] at h ⊢
              rcases hrc : ES.revealCards roomId db with ⟨db1, r⟩
              simp only [hrc] at h ⊢
              cases r with
              | error m =>
                  have h1 : db1 = db := by
                    have := es_revealCards_err_unchanged roomId db m (by rw [hrc])
                    rwa [hrc] at this
                  simpa using h1
              | ok res =>
                  cases res with
                  | some result => cases h
                  | none =>
                      have := es_revealCards_ok_isSome roomId db none (by rw [hrc])
                      cases this

theorem handleLeaveRoom_no_error (pid? : Option String) (db : DB) :
    (WS.handleLeaveRoom pid? db).2 = none := by
  cases pid? with
  | none => rfl
  | some pid =>
      simp only [WS.handleLeaveRoom]
      by_cases hp : pid = ""
      · rw [if_pos hp]
      · rw [if_neg hp]
        cases hmap : Services.getPlayerRoom pid db with
        | none => rfl
        | some roomId => simp [apply_ite]

theorem handleRemovePlayer_err_unchanged (rpid? : Option String)
    (pid : String) (db : DB) (msg : String)
    (h : (WS.handleRemovePlayer rpid? pid db).2 = some msg) :
    (WS.handleRemovePlayer rpid? pid db).1 = db := by
  cases rpid? with
  | none => rfl
  | some rpid =>
      simp only [WS.handleRemovePlayer] at h ⊢
      by_cases hrp : rpid = ""
      · rw [if_pos hrp]
      · rw [if_neg hrp] at h ⊢
        by_cases hp : pid = ""
        · rw [if_pos hp]
        · rw [if_neg hp] at h ⊢
          cases hmap : Services.getPlayerRoom rpid db with
          | none => simp [hmap]
          | some roomId =>
              simp only [hmap] at h ⊢
              by_cases hr0 : roomId = ""
              · rw [if_pos hr0]
              · rw [if_neg hr0] at h ⊢
                by_cases htgt : Services.getPlayerRoom pid db ≠ some roomId
                · rw [if_pos htgt]
                · rw [if_neg htgt] at h ⊢
                  cases hget : db.getRoom roomId with
                  | none => simp [hget]
                  | some room =>
                      simp only [hget] at h ⊢
                      cases hfind : room.players.find? (fun p => p.id = pid) with
                      | none => simp [hfind]
                      | some targetPlayer =>
                          simp only [hfind] at h ⊢
                          by_cases hcon : targetPlayer.isConnected = true
                          · rw [if_pos hcon]
                          · rw [if_neg hcon] at h ⊢
                            by_cases hlv : (Services.leaveRoomService pid db).2.success = true
                            · rw [if_pos hlv] at h
                              cases h
                            · rw [if_neg hlv] at h ⊢
                              exact leaveRoomService_fail_unchanged pid db
                                (by simpa using hlv)

theorem handleJoinRoom_err_unchanged (roomId playerName freshId : String)
    (now : Nat) (db : DB) (msg : String)
    (h : (WS.handleJoinRoom roomId playerName freshId now db).2 = some msg) :
    (WS.handleJoinRoom roomId playerName freshId now db).1 = db := by
  unfold WS.handleJoinRoom at h ⊢
  by_cases h0 : trimStr roomId = ""
  · rw [if_pos h0]
  · rw [if_neg h0] at h ⊢
    by_cases h1 : trimStr playerName = ""
    · rw [if_pos h1]
    · rw [if_neg h1] at h ⊢
      by_cases h2 : (trimStr playerName).length > 30
      · rw [if_pos h2]
      · rw [if_neg h2] at h ⊢
        cases hex : db.getRoom (trimStr roomId) with
        | some room0 =>
            simp only [hex] at h ⊢
            by_cases hsucc : (Services.joinRoomService (trimStr roomId)
                (trimStr playerName) freshId now db).2.success = true
            · obtain ⟨hrs, hps⟩ := joinRoomService_success_fields _ _ _ _ _ hsucc
              have hrn : (Services.joinRoomService (trimStr roomId)
                  (trimStr playerName) freshId now db).2.room.isNone = false := by
                cases hx : (Services.joinRoomService (trimStr roomId)
                    (trimStr playerName) freshId now db).2.room with
                | none => rw [hx] at hrs; cases hrs
                | some _ => rfl
              have hpn : (Services.joinRoomService (trimStr roomId)
                  (trimStr playerName) freshId now db).2.player.isNone = false := by
                cases hx : (Services.joinRoomService (trimStr roomId)
                    (trimStr playerName) freshId now db).2.player with
                | none => rw [hx] at hps; cases hps
                | some _ => rfl
              rw [if_neg (by simp [hsucc, hrn, hpn])] at h
              cases h
            · have hs : (Services.joinRoomService (trimStr roomId)
                  (trimStr playerName) freshId now db).2.success = false := by
                simpa using hsucc
              rw [if_pos (by simp [hs])] at h ⊢
              exact joinRoomService_fail_unchanged _ _ _ _ _ hs
        | none =>
            simp only [hex] at h ⊢
            rcases hcs : Services.createRoomService (trimStr roomId) now db with
              ⟨db1, cr⟩
            simp only [hcs] at h ⊢
            cases cr with
            | error m =>
                have h3 : db1 = db := by
                  have := createRoomService_err_unchanged (trimStr roomId) now db m
                    (by rw [hcs])
                  rwa [hcs] at this
                simpa using h3
            | ok room' =>
                exfalso
                have hidem : trimStr (trimStr roomId) = trimStr roomId :=
                  trimStr_idem roomId
                by_cases h100 : (trimStr roomId).length > 100
                · rw [show Services.createRoomService (trimStr roomId) now db =
                      (db, Except.error "Room name cannot exceed 100 characters") from by
                    unfold Services.createRoomService
                    rw [hidem, if_neg h0, if_pos h100]] at hcs
                  cases hcs
                  -- impossible: cr is ok
                · have hshape : Services.createRoomService (trimStr roomId) now db =
                      ((RoomUtils.createRoom (trimStr roomId) now db).1,
                       Except.ok (RoomUtils.createRoom (trimStr roomId) now db).2) := by
                    unfold Services.createRoomService
                    rw [hidem, if_neg h0, if_neg h100, hex]
                  rw [hshape] at hcs
                  have hdb1 : db1 =
                      (RoomUtils.createRoom (trimStr roomId) now db).1 := by
                    have := congrArg Prod.fst hcs
                    simpa using this.symm
                  have hg1 : db1.getRoom (trimStr roomId) =
                      some { id := trimStr roomId, name := trimStr roomId
                             createdAt := now, players := [], currentRound := none } := by
                    rw [hdb1]
                    unfold RoomUtils.createRoom DB.createRoom
                    rw [hidem]
                    exact getRoom_set_self db (trimStr roomId) _ _
                  have hjs : (Services.joinRoomService (trimStr roomId)
                      (trimStr playerName) freshId now db1).2.success = true := by
                    unfold Services.joinRoomService
                    rw [if_neg (by simp [h0, h1])]
                    simp only [hg1]
                    exact joinRoom_on_empty_room db1 (trimStr roomId)
                      (trimStr playerName) freshId now _ hg1 rfl
                  obtain ⟨hrs, hps⟩ := joinRoomService_success_fields _ _ _ _ _ hjs
                  have hrn : (Services.joinRoomService (trimStr roomId)
                      (trimStr playerName) freshId now db1).2.room.isNone = false := by
                    cases hx : (Services.joinRoomService (trimStr roomId)
                        (trimStr playerName) freshId now db1).2.room with
                    | none => rw [hx] at hrs; cases hrs
                    | some _ => rfl
                  have hpn : (Services.joinRoomService (trimStr roomId)
                      (trimStr playerName) freshId now db1).2.player.isNone = false := by
                    cases hx : (Services.joinRoomService (trimStr roomId)
                        (trimStr playerName) freshId now db1).2.player with
                    | none => rw [hx] at hps; cases hps
                    | some _ => rfl
                  have hcond : (!(Services.joinRoomService (trimStr roomId)
                        (trimStr playerName) freshId now db1).2.success ||
                      (Services.joinRoomService (trimStr roomId)
                        (trimStr playerName) freshId now db1).2.room.isNone ||
                      (Services.joinRoomService (trimStr roomId)
                        (trimStr playerName) freshId now db1).2.player.isNone) = false := by
                    simp [hjs, hrn, hpn]
                  simp [hcond] at h

/-- C4. For every inbound client action and every store state, an action
that reports an error to the acting client leaves the session store
exactly as it was: every error exit happens before any store mutation, so
no action partially updates shared room state and then fails. -/
theorem c4_actions_atomic (a : WS.Action) (db : DB) (msg : String)
    (herr : (WS.applyAction a db).2 = some msg) :
    (WS.applyAction a db).1 = db := by
  cases a with
  | join roomId playerName freshId now =>
      exact handleJoinRoom_err_unchanged roomId playerName freshId now db msg herr
  | startRound pid? now =>
      exact handleStartRound_err_unchanged pid? now db msg herr
  | selectCard pid? v =>
      exact handleSelectCard_err_unchanged pid? v db msg herr
  | revealCards pid? =>
      exact handleRevealCards_err_unchanged pid? db msg herr
  | leaveRoom pid? =>
      have h2 : (WS.handleLeaveRoom pid? db).2 = some msg := herr
      rw [handleLeaveRoom_no_error pid? db] at h2
      cases h2
  | removePlayer rpid? pid =>
      exact handleRemovePlayer_err_unchanged rpid? pid db msg herr

/-- Witness for C4 at a concrete input: a start-round action from an
unbound socket errors with `Player not found` and leaves the empty store
untouched. -/
theorem c4_witness :
    (WS.applyAction (WS.Action.startRound none 0) DB.empty).2 =
      some "Player not found" ∧
    (WS.applyAction (WS.Action.startRound none 0) DB.empty).1 = DB.empty :=
  ⟨rfl, c4_actions_atomic (WS.Action.startRound none 0) DB.empty
    "Player not found" rfl⟩

/-! ## Name uniqueness invariant -/

/-- The lowered display names of a room's participants are pairwise
distinct. -/
def RoomNamesOK (room : Room) : Prop :=
  (room.players.map (fun p => lowerStr p.name)).Nodup

/-- Every room held by the store satisfies `RoomNamesOK`. -/
def NamesOK (db : DB) : Prop :=
  ∀ e ∈ db.rooms, RoomNamesOK e.2

theorem namesOK_empty : NamesOK DB.empty := by
  intro e he
  cases he

theorem alGet_mem {α β : Type} [DecidableEq α] {m : List (α × β)} {k : α}
    {v : β} (h : alGet m k = some v) : ∃ e ∈ m, e.2 = v := by
  unfold alGet at h
  cases hf : m.find? (fun e => e.1 = k) with
  | none => rw [hf] at h; cases h
  | some e =>
      rw [hf] at h
      exact ⟨e, List.mem_of_find?_eq_some hf, by simpa using h⟩

theorem NamesOK.room {db : DB} (h : NamesOK db) {roomId : String} {room : Room}
    (hget : db.getRoom roomId = some room) : RoomNamesOK room := by
  obtain ⟨e, hmem, hev⟩ := alGet_mem hget
  rw [← hev]
  exact h e hmem

theorem namesOK_set {db : DB} (h : NamesOK db) {k : String} {room : Room}
    (hroom : RoomNamesOK room) (m2 : List (String × String)) :
    NamesOK ⟨alSet db.rooms k room, m2⟩ := by
  intro e he
  rcases mem_alSet he with h1 | h1
  · exact h e h1
  · rw [h1]
    exact hroom

theorem namesOK_removePlayerFromRoom (roomId pid : String) (db : DB)
    (h : NamesOK db) : NamesOK (DB.removePlayerFromRoom roomId pid db).1 := by
  cases hroom : db.getRoom roomId with
  | none =>
      simp only [DB.removePlayerFromRoom, hroom]
      exact h
  | some room =>
      have hnd : RoomNamesOK room := h.room hroom
      have hsub : ((room.players.filter (fun p => p.id ≠ pid)).map
          (fun p => lowerStr p.name)).Nodup := by
        unfold RoomNamesOK at hnd
        exact hnd.sublist ((List.filter_sublist _).map _)
      simp only [DB.removePlayerFromRoom, hroom]
      cases hcr : room.currentRound with
      | none =>
          refine namesOK_set h ?_ _
          exact hsub
      | some round =>
          refine namesOK_set h ?_ _
          exact hsub

theorem namesOK_removePlayerFromCurrentRoom (pid : String) (db : DB)
    (h : NamesOK db) :
    NamesOK (DB.removePlayerFromCurrentRoom pid db).1 := by
  cases hmap : db.getPlayerRoom pid with
  | none =>
      simp only [DB.removePlayerFromCurrentRoom, hmap]
      exact h
  | some roomId =>
      simp only [DB.removePlayerFromCurrentRoom, hmap]
      exact namesOK_removePlayerFromRoom roomId pid db h

theorem namesOK_updatePlayerInRoom (roomId pid : String) (c : Option Bool)
    (db : DB) (h : NamesOK db) :
    NamesOK (DB.updatePlayerInRoom roomId pid c db).1 := by
  cases hroom : db.getRoom roomId with
  | none =>
      simp only [DB.updatePlayerInRoom, hroom]
      exact h
  | some room =>
      simp only [DB.updatePlayerInRoom, hroom]
      by_cases hall : (room.players.all (fun p => p.id ≠ pid)) = true
      · rw [if_pos hall]
        exact h
      · rw [if_neg hall]
        refine namesOK_set h ?_ _
        show ((DB.replaceFirstPlayer pid _ room.players).map
          (fun p => lowerStr p.name)).Nodup
        rw [map_replaceFirstPlayer pid
          (fun p => { id := p.id, name := p.name, isConnected := c.getD p.isConnected, joinedAt := p.joinedAt })
          (fun p => lowerStr p.name) (fun p => rfl) room.players]
        exact h.room hroom

theorem namesOK_setCurrentRound (roomId : String)
    (round : Option EstimationRound) (db : DB) (h : NamesOK db) :
    NamesOK (DB.setCurrentRound roomId round db).1 := by
  cases hroom : db.getRoom roomId with
  | none =>
      simp only [DB.setCurrentRound, hroom]
      exact h
  | some room =>
      simp only [DB.setCurrentRound, hroom]
      refine namesOK_set h ?_ _
      show (List.map (fun p => lowerStr p.name) room.players).Nodup
      exact h.room hroom

theorem namesOK_addCard (roomId pid v : String) (db : DB) (h : NamesOK db) :
    NamesOK (DB.addCardToCurrentRound roomId pid v db).1 := by
  cases hroom : db.getRoom roomId with
  | none =>
      simp only [DB.addCardToCurrentRound, hroom]
      exact h
  | some room =>
      simp only [DB.addCardToCurrentRound, hroom]
      cases hcr : room.currentRound with
      | none => exact h
      | some round =>
          refine namesOK_set h ?_ _
          show (List.map (fun p => lowerStr p.name) room.players).Nodup
          exact h.room hroom

theorem namesOK_revealCardsInCurrentRound (roomId : String) (db : DB)
    (h : NamesOK db) :
    NamesOK (DB.revealCardsInCurrentRound roomId db).1 := by
  cases hroom : db.getRoom roomId with
  | none =>
      simp only [DB.revealCardsInCurrentRound, hroom]
      exact h
  | some room =>
      simp only [DB.revealCardsInCurrentRound, hroom]
      cases hcr : room.currentRound with
      | none => exact h
      | some round =>
          refine namesOK_set h ?_ _
          show (List.map (fun p => lowerStr p.name) room.players).Nodup
          exact h.room hroom

theorem namesOK_addPlayerToRoom (roomId : String) (player : Player) (db : DB)
    (h : NamesOK db)
    (hfresh : ∀ room, db.getRoom roomId = some room →
      lowerStr player.name ∉ room.players.map (fun p => lowerStr p.name)) :
    NamesOK (DB.addPlayerToRoom roomId player db).1 := by
  cases hroom : db.getRoom roomId with
  | none =>
      simp only [DB.addPlayerToRoom, hroom]
      exact h
  | some room =>
      simp only [DB.addPlayerToRoom, hroom]
      have h1 : NamesOK (DB.removePlayerFromCurrentRoom player.id db).1 :=
        namesOK_removePlayerFromCurrentRoom player.id db h
      refine namesOK_set h1 ?_ _
      show ((room.players ++ [player]).map (fun p => lowerStr p.name)).Nodup
      rw [List.map_append]
      have hnd : (room.players.map (fun p => lowerStr p.name)).Nodup :=
        h.room hroom
      have hni := hfresh room hroom
      simp only [List.map_cons, List.map_nil]
      rw [List.nodup_append]
      refine ⟨hnd, List.nodup_singleton _, ?_⟩
      intro a ha hb
      rw [List.mem_singleton] at hb
      rw [hb] at ha
      exact hni ha

theorem fst_ite_pair {α β : Type} (c : Prop) [Decidable c] (x : α) (a b : β) :
    (if c then (x, a) else (x, b)).1 = x := by
  by_cases h : c
  · rw [if_pos h]
  · rw [if_neg h]

theorem namesOK_RoomUtils_createRoom (name : String) (now : Nat) (db : DB)
    (h : NamesOK db) : NamesOK (RoomUtils.createRoom name now db).1 := by
  refine namesOK_set h ?_ _
  show (List.map (fun p => lowerStr p.name) ([] : List Player)).Nodup
  exact List.nodup_nil

theorem namesOK_ES_startRound (roomId : String) (now : Nat) (db : DB)
    (h : NamesOK db) : NamesOK (ES.startRound roomId now db).1 := by
  by_cases h0 : roomId = ""
  · simp only [ES.startRound]
    rw [if_pos h0]
    exact h
  · cases hroom : db.getRoom roomId with
    | none =>
        simp only [ES.startRound, hroom]
        rw [if_neg h0]
        exact h
    | some room =>
        by_cases hemp : room.players.isEmpty = true
        · simp only [ES.startRound, hroom]
          rw [if_neg h0, if_pos hemp]
          exact h
        · simp only [ES.startRound, hroom]
          rw [if_neg h0, if_neg hemp]
          exact namesOK_setCurrentRound roomId _ db h

theorem namesOK_ES_submitCard (roomId playerId cardValue : String) (db : DB)
    (h : NamesOK db) : NamesOK (ES.submitCard roomId playerId cardValue db).1 := by
  by_cases h0 : (roomId = "" || playerId = "") = true
  · simp only [ES.submitCard]
    rw [if_pos h0]
    exact h
  · by_cases h1 : cardValue ∉ PLANNING_POKER_DECK
    · simp only [ES.submitCard]
      rw [if_neg h0, if_pos h1]
      exact h
    · cases hroom : db.getRoom roomId with
      | none =>
          simp only [ES.submitCard, hroom]
          rw [if_neg h0, if_neg h1]
          exact h
      | some room =>
          by_cases h2 : (room.players.all (fun p => p.id ≠ playerId)) = true
          · simp only [ES.submitCard, hroom]
            rw [if_neg h0, if_neg h1, if_pos h2]
            exact h
          · cases hcr : db.getCurrentRound roomId with
            | none =>
                simp only [ES.submitCard, hroom, hcr]
                rw [if_neg h0, if_neg h1, if_neg h2]
                exact h
            | some currentRound =>
                by_cases h3 : currentRound.isRevealed = true
                · simp only [ES.submitCard, hroom, hcr]
                  rw [if_neg h0, if_neg h1, if_neg h2, if_pos h3]
                  exact h
                · simp only [ES.submitCard, hroom, hcr]
                  rw [if_neg h0, if_neg h1, if_neg h2, if_neg h3]
                  exact namesOK_addCard roomId playerId cardValue db h

theorem namesOK_ES_revealCards (roomId : String) (db : DB) (h : NamesOK db) :
    NamesOK (ES.revealCards roomId db).1 := by
  by_cases h0 : roomId = ""
  · simp only [ES.revealCards]
    rw [if_pos h0]
    exact h
  · cases hroom : db.getRoom roomId with
    | none =>
        simp only [ES.revealCards, hroom]
        rw [if_neg h0]
        exact h
    | some room =>
        cases hcr : db.getCurrentRound roomId with
        | none =>
            simp only [ES.revealCards, hroom, hcr]
            rw [if_neg h0]
            exact h
        | some currentRound =>
            by_cases h1 : currentRound.isRevealed = true
            · simp only [ES.revealCards, hroom, hcr]
              rw [if_neg h0, if_pos h1]
              exact h
            · simp only [ES.revealCards, hroom, hcr]
              rw [if_neg h0, if_neg h1, fst_ite_pair]
              exact namesOK_revealCardsInCurrentRound roomId db h

theorem namesOK_RoomUtils_leaveRoom (playerId : String) (db : DB)
    (h : NamesOK db) : NamesOK (RoomUtils.leaveRoom playerId db).1 := by
  cases hmap : db.getPlayerRoom playerId with
  | none =>
      simp only [RoomUtils.leaveRoom, hmap]
      exact h
  | some roomId =>
      simp only [RoomUtils.leaveRoom, hmap]
      exact namesOK_removePlayerFromRoom roomId playerId db h

theorem namesOK_updatePlayerConnectionStatus (playerId : String) (b : Bool)
    (db : DB) (h : NamesOK db) :
    NamesOK (RoomUtils.updatePlayerConnectionStatus playerId b db).1 := by
  cases hmap : db.getPlayerRoom playerId with
  | none =>
      simp only [RoomUtils.updatePlayerConnectionStatus, hmap]
      exact h
  | some roomId =>
      simp only [RoomUtils.updatePlayerConnectionStatus, hmap]
      exact namesOK_updatePlayerInRoom roomId playerId (some b) db h

theorem namesOK_joinRoom (roomId playerName freshId : String) (now : Nat)
    (db : DB) (h : NamesOK db) (hn : trimStr playerName = playerName) :
    NamesOK (RoomUtils.joinRoom roomId playerName freshId now db).1 := by
  cases hroom : db.getRoom roomId with
  | none =>
      simp only [RoomUtils.joinRoom, hroom]
      exact h
  | some room =>
      cases hfind : room.players.find?
          (fun p => lowerStr p.name = lowerStr playerName) with
      | some existingPlayer =>
          simp only [RoomUtils.joinRoom, hroom, hfind]
          by_cases hconn : existingPlayer.isConnected = true
          · rw [if_pos hconn]
            exact h
          · rw [if_neg hconn, fst_ite_pair]
            exact namesOK_updatePlayerInRoom roomId existingPlayer.id (some true) db h
      | none =>
          simp only [RoomUtils.joinRoom, hroom, hfind]
          rw [fst_ite_pair]
          refine namesOK_addPlayerToRoom roomId _ db h ?_
          intro room2 hroom2 hmem
          rw [hroom] at hroom2
          injection hroom2 with he
          subst he
          rw [List.mem_map] at hmem
          obtain ⟨q, hq, hqeq⟩ := hmem
          have h2 := List.find?_eq_none.mp hfind q hq
          apply h2
          show decide (lowerStr q.name = lowerStr playerName) = true
          rw [decide_eq_true_iff]
          have h3 : lowerStr q.name = lowerStr (trimStr playerName) := hqeq
          rw [hn] at h3
          exact h3

theorem namesOK_joinRoomService (roomId playerName freshId : String)
    (now : Nat) (db : DB) (h : NamesOK db)
    (hn : trimStr playerName = playerName) :
    NamesOK (Services.joinRoomService roomId playerName freshId now db).1 := by
  by_cases h0 : (roomId = "" || playerName = "") = true
  · simp only [Services.joinRoomService]
    rw [if_pos h0]
    exact h
  · cases hroom : db.getRoom roomId with
    | none =>
        simp only [Services.joinRoomService, hroom]
        rw [if_neg h0]
        exact h
    | some r0 =>
        simp only [Services.joinRoomService, hroom]
        rw [if_neg h0]
        exact namesOK_joinRoom roomId playerName freshId now db h hn

theorem namesOK_createRoomService (roomName : String) (now : Nat) (db : DB)
    (h : NamesOK db) : NamesOK (Services.createRoomService roomName now db).1 := by
  by_cases h0 : trimStr roomName = ""
  · simp only [Services.createRoomService]
    rw [if_pos h0]
    exact h
  · by_cases h1 : (trimStr roomName).length > 100
    · simp only [Services.createRoomService]
      rw [if_neg h0, if_pos h1]
      exact h
    · cases hroom : db.getRoom (trimStr roomName) with
      | some existingRoom =>
          simp only [Services.createRoomService, hroom]
          rw [if_neg h0, if_neg h1]
          exact h
      | none =>
          simp only [Services.createRoomService, hroom]
          rw [if_neg h0, if_neg h1]
          exact namesOK_RoomUtils_createRoom (trimStr roomName) now db h

theorem namesOK_leaveRoomService (playerId : String) (db : DB)
    (h : NamesOK db) : NamesOK (Services.leaveRoomService playerId db).1 := by
  by_cases h0 : playerId = ""
  · simp only [Services.leaveRoomService]
    rw [if_pos h0]
    exact h
  · simp only [Services.leaveRoomService]
    rw [if_neg h0]
    exact namesOK_RoomUtils_leaveRoom playerId db h

theorem namesOK_Services_updateConnectionStatus (playerId : String) (b : Bool)
    (db : DB) (h : NamesOK db) :
    NamesOK (Services.updateConnectionStatus playerId b db).1 := by
  by_cases h0 : playerId = ""
  · simp only [Services.updateConnectionStatus]
    rw [if_pos h0]
    exact h
  · simp only [Services.updateConnectionStatus]
    rw [if_neg h0]
    exact namesOK_updatePlayerConnectionStatus playerId b db h

theorem namesOK_Services_addPlayer (roomId : String) (player : Player)
    (db : DB) (h : NamesOK db) :
    NamesOK (Services.addPlayer roomId player db).1 := by
  by_cases h0 : (roomId = "" || player.id = "") = true
  · simp only [Services.addPlayer]
    rw [if_pos h0]
    exact h
  · cases hroom : db.getRoom roomId with
    | none =>
        simp only [Services.addPlayer, hroom]
        rw [if_neg h0]
        exact h
    | some room =>
        by_cases hany :
            (room.players.any (fun p => lowerStr p.name = lowerStr player.name)) = true
        · simp only [Services.addPlayer, hroom]
          rw [if_neg h0, if_pos hany]
          exact h
        · simp only [Services.addPlayer, hroom]
          rw [if_neg h0, if_neg hany]
          have h1 : NamesOK (DB.addPlayerToRoom roomId player db).1 := by
            refine namesOK_addPlayerToRoom roomId player db h ?_
            intro room2 hroom2 hmem
            rw [hroom] at hroom2
            injection hroom2 with he
            subst he
            rw [List.mem_map] at hmem
            obtain ⟨q, hq, hqeq⟩ := hmem
            apply hany
            rw [List.any_eq_true]
            exact ⟨q, hq, decide_eq_true hqeq⟩
          by_cases hr2 : (DB.addPlayerToRoom roomId player db).2 = true
          · rw [if_pos hr2]
            exact h1
          · rw [if_neg hr2]
            exact h1

theorem namesOK_handleJoinRoom (roomId playerName freshId : String)
    (now : Nat) (db : DB) (h : NamesOK db) :
    NamesOK (WS.handleJoinRoom roomId playerName freshId now db).1 := by
  by_cases h0 : trimStr roomId = ""
  · simp only [WS.handleJoinRoom]
    rw [if_pos h0]
    exact h
  · by_cases h1 : trimStr playerName = ""
    · simp only [WS.handleJoinRoom]
      rw [if_neg h0, if_pos h1]
      exact h
    · by_cases h2 : (trimStr playerName).length > 30
      · simp only [WS.handleJoinRoom]
        rw [if_neg h0, if_neg h1, if_pos h2]
        exact h
      · cases hroom : db.getRoom (trimStr roomId) with
        | some r0 =>
            simp only [WS.handleJoinRoom, hroom]
            rw [if_neg h0, if_neg h1, if_neg h2, fst_ite_pair]
            exact namesOK_joinRoomService (trimStr roomId) (trimStr playerName)
              freshId now db h (trimStr_idem playerName)
        | none =>
            cases hcr : Services.createRoomService (trimStr roomId) now db with
            | mk db1 res =>
                have hdb1 : NamesOK db1 := by
                  have h3 := namesOK_createRoomService (trimStr roomId) now db h
                  rw [hcr] at h3
                  exact h3
                cases res with
                | error msg =>
                    simp only [WS.handleJoinRoom, hroom, hcr]
                    rw [if_neg h0, if_neg h1, if_neg h2]
                    exact hdb1
                | ok r0 =>
                    simp only [WS.handleJoinRoom, hroom, hcr]
                    rw [if_neg h0, if_neg h1, if_neg h2, fst_ite_pair]
                    exact namesOK_joinRoomService (trimStr roomId)
                      (trimStr playerName) freshId now db1 hdb1
                      (trimStr_idem playerName)

theorem namesOK_handleStartRound (playerId? : Option String) (now : Nat)
    (db : DB) (h : NamesOK db) :
    NamesOK (WS.handleStartRound playerId? now db).1 := by
  cases playerId? with
  | none => exact h
  | some playerId =>
      by_cases h0 : playerId = ""
      · simp only [WS.handleStartRound]
        rw [if_pos h0]
        exact h
      · cases hpr : Services.getPlayerRoom playerId db with
        | none =>
            simp only [WS.handleStartRound, hpr]
            rw [if_neg h0]
            exact h
        | some roomId =>
            by_cases h1 : roomId = ""
            · simp only [WS.handleStartRound, hpr]
              rw [if_neg h0, if_pos h1]
              exact h
            · simp only [WS.handleStartRound, hpr]
              rw [if_neg h0, if_neg h1]
              exact namesOK_ES_startRound roomId now db h

theorem namesOK_handleSelectCard (playerId? : Option String)
    (cardValue : String) (db : DB) (h : NamesOK db) :
    NamesOK (WS.handleSelectCard playerId? cardValue db).1 := by
  cases playerId? with
  | none => exact h
  | some playerId =>
      by_cases h0 : playerId = ""
      · simp only [WS.handleSelectCard]
        rw [if_pos h0]
        exact h
      · cases hpr : Services.getPlayerRoom playerId db with
        | none =>
            simp only [WS.handleSelectCard, hpr]
            rw [if_neg h0]
            exact h
        | some roomId =>
            by_cases h1 : roomId = ""
            · simp only [WS.handleSelectCard, hpr]
              rw [if_neg h0, if_pos h1]
              exact h
            · by_cases h2 : cardValue = ""
              · simp only [WS.handleSelectCard, hpr]
                rw [if_neg h0, if_neg h1, if_pos h2]
                exact h
              · by_cases h3 : cardValue ∉ WS.validCards
                · simp only [WS.handleSelectCard, hpr]
                  rw [if_neg h0, if_neg h1, if_neg h2, if_pos h3]
                  exact h
                · cases hsub : ES.submitCard roomId playerId cardValue db with
                  | mk db1 err =>
                    have hdb1 : NamesOK db1 := by
                      have h4 := namesOK_ES_submitCard roomId playerId cardValue db h
                      rw [hsub] at h4
                      exact h4
                    cases err with
                    | some msg =>
                        simp only [WS.handleSelectCard, hpr, hsub]
                        rw [if_neg h0, if_neg h1, if_neg h2, if_neg h3]
                        exact hdb1
                    | none =>
                        cases hroom1 : db1.getRoom roomId with
                        | none =>
                            simp only [WS.handleSelectCard, hpr, hsub, hroom1]
                            rw [if_neg h0, if_neg h1, if_neg h2, if_neg h3]
                            exact hdb1
                        | some room =>
                            cases hcr : room.currentRound with
                            | none =>
                                simp only [WS.handleSelectCard, hpr, hsub,
                                  hroom1, hcr]
                                rw [if_neg h0, if_neg h1, if_neg h2, if_neg h3]
                                exact hdb1
                            | some round =>
                                by_cases h5 : round.isRevealed = true
                                · simp only [WS.handleSelectCard, hpr, hsub,
                                    hroom1, hcr]
                                  rw [if_neg h0, if_neg h1, if_neg h2, if_neg h3,
                                    if_pos h5]
                                  exact namesOK_ES_revealCards roomId db1 hdb1
                                · simp only [WS.handleSelectCard, hpr, hsub,
                                    hroom1, hcr]
                                  rw [if_neg h0, if_neg h1, if_neg h2, if_neg h3,
                                    if_neg h5]
                                  exact hdb1

theorem namesOK_handleRevealCards (playerId? : Option String) (db : DB)
    (h : NamesOK db) : NamesOK (WS.handleRevealCards playerId? db).1 := by
  cases playerId? with
  | none => exact h
  | some playerId =>
      by_cases h0 : playerId = ""
      · simp only [WS.handleRevealCards]
        rw [if_pos h0]
        exact h
      · cases hpr : Services.getPlayerRoom playerId db with
        | none =>
            simp only [WS.handleRevealCards, hpr]
            rw [if_neg h0]
            exact h
        | some roomId =>
            by_cases h1 : roomId = ""
            · simp only [WS.handleRevealCards, hpr]
              rw [if_neg h0, if_pos h1]
              exact h
            · cases hrc : ES.revealCards roomId db with
              | mk db1 res =>
                have hdb1 : NamesOK db1 := by
                  have h2 := namesOK_ES_revealCards roomId db h
                  rw [hrc] at h2
                  exact h2
                cases res with
                | error msg =>
                    simp only [WS.handleRevealCards, hpr, hrc]
                    rw [if_neg h0, if_neg h1]
                    exact hdb1
                | ok o =>
                    cases o with
                    | some r0 =>
                        simp only [WS.handleRevealCards, hpr, hrc]
                        rw [if_neg h0, if_neg h1]
                        exact hdb1
                    | none =>
                        simp only [WS.handleRevealCards, hpr, hrc]
                        rw [if_neg h0, if_neg h1]
                        exact hdb1

theorem namesOK_handleLeaveRoom (playerId? : Option String) (db : DB)
    (h : NamesOK db) : NamesOK (WS.handleLeaveRoom playerId? db).1 := by
  cases playerId? with
  | none => exact h
  | some playerId =>
      by_cases h0 : playerId = ""
      · simp only [WS.handleLeaveRoom]
        rw [if_pos h0]
        exact h
      · cases hpr : Services.getPlayerRoom playerId db with
        | none =>
            simp only [WS.handleLeaveRoom, hpr]
            rw [if_neg h0]
            exact h
        | some roomId =>
            by_cases h1 : roomId = ""
            · simp only [WS.handleLeaveRoom, hpr]
              rw [if_neg h0, if_pos h1]
              exact h
            · simp only [WS.handleLeaveRoom, hpr]
              rw [if_neg h0, if_neg h1]
              exact namesOK_leaveRoomService playerId db h

theorem namesOK_handleRemovePlayer (requestingPlayerId? : Option String)
    (playerId : String) (db : DB) (h : NamesOK db) :
    NamesOK (WS.handleRemovePlayer requestingPlayerId? playerId db).1 := by
  cases requestingPlayerId? with
  | none => exact h
  | some rq =>
      by_cases h0 : rq = ""
      · simp only [WS.handleRemovePlayer]
        rw [if_pos h0]
        exact h
      · by_cases h1 : playerId = ""
        · simp only [WS.handleRemovePlayer]
          rw [if_neg h0, if_pos h1]
          exact h
        · cases hpr : Services.getPlayerRoom rq db with
          | none =>
              simp only [WS.handleRemovePlayer, hpr]
              rw [if_neg h0, if_neg h1]
              exact h
          | some roomId =>
              by_cases h2 : roomId = ""
              · simp only [WS.handleRemovePlayer, hpr]
                rw [if_neg h0, if_neg h1, if_pos h2]
                exact h
              · by_cases h3 : Services.getPlayerRoom playerId db ≠ some roomId
                · simp only [WS.handleRemovePlayer, hpr]
                  rw [if_neg h0, if_neg h1, if_neg h2, if_pos h3]
                  exact h
                · cases hroom : db.getRoom roomId with
                  | none =>
                      simp only [WS.handleRemovePlayer, hpr, hroom]
                      rw [if_neg h0, if_neg h1, if_neg h2, if_neg h3]
                      exact h
                  | some room =>
                      cases hfind : room.players.find? (fun p => p.id = playerId) with
                      | none =>
                          simp only [WS.handleRemovePlayer, hpr, hroom, hfind]
                          rw [if_neg h0, if_neg h1, if_neg h2, if_neg h3]
                          exact h
                      | some targetPlayer =>
                          by_cases h4 : targetPlayer.isConnected = true
                          · simp only [WS.handleRemovePlayer, hpr, hroom, hfind]
                            rw [if_neg h0, if_neg h1, if_neg h2, if_neg h3,
                              if_pos h4]
                            exact h
                          · simp only [WS.handleRemovePlayer, hpr, hroom, hfind]
                            rw [if_neg h0, if_neg h1, if_neg h2, if_neg h3,
                              if_neg h4, fst_ite_pair]
                            exact namesOK_leaveRoomService playerId db h

theorem namesOK_applyAction (a : WS.Action) (db : DB) (h : NamesOK db) :
    NamesOK (WS.applyAction a db).1 := by
  cases a with
  | join roomId playerName freshId now =>
      exact namesOK_handleJoinRoom roomId playerName freshId now db h
  | startRound playerId? now => exact namesOK_handleStartRound playerId? now db h
  | selectCard playerId? cardValue =>
      exact namesOK_handleSelectCard playerId? cardValue db h
  | revealCards playerId? => exact namesOK_handleRevealCards playerId? db h
  | leaveRoom playerId? => exact namesOK_handleLeaveRoom playerId? db h
  | removePlayer requestingPlayerId? playerId =>
      exact namesOK_handleRemovePlayer requestingPlayerId? playerId db h

/-- One application of a public mutating operation of the backend
(index.ts routes plus the gateway): an inbound gateway action; a
connection-status transition (gateway disconnect handling, the
lost-mapping recovery, `PUT /api/players/:playerId/connection`, and the
admin restore endpoint); a REST join (`POST /api/rooms/:roomId/join`,
which hands the request-body name to `playerService.joinRoom` untrimmed);
a REST leave (`POST /api/players/:playerId/leave`, also the cleanup
endpoint's per-player removals); or a REST room creation
(`POST /api/rooms`). No route exposes `RoomServiceImpl.addPlayer`. -/
inductive Step : DB → DB → Prop where
  | act (a : WS.Action) (db : DB) : Step db (WS.applyAction a db).1
  | conn (playerId : String) (b : Bool) (db : DB) :
      Step db (Services.updateConnectionStatus playerId b db).1
  | restJoin (roomId playerName freshId : String) (now : Nat) (db : DB) :
      Step db (Services.joinRoomService roomId playerName freshId now db).1
  | restLeave (playerId : String) (db : DB) :
      Step db (Services.leaveRoomService playerId db).1
  | createRoom (roomName : String) (now : Nat) (db : DB) :
      Step db (Services.createRoomService roomName now db).1

/-- Store states reachable from the empty store through the public
operations. -/
inductive Reachable : DB → Prop where
  | init : Reachable DB.empty
  | step {db db2 : DB} : Reachable db → Step db db2 → Reachable db2

/-- The store reached from empty by creating room "R" over `POST
/api/rooms` and then REST-joining the names "alice" and " alice". -/
def dbDup : DB :=
  (Services.joinRoomService "R" " alice" "id2" 2
    (Services.joinRoomService "R" "alice" "id1" 1
      (Services.createRoomService "R" 0 DB.empty).1).1).1

/-- The room "R" holds in `dbDup`: two connected players, both with the
stored display name "alice". -/
def roomDup : Room :=
  ⟨"R", "R", 0, [⟨"id1", "alice", true, 1⟩, ⟨"id2", "alice", true, 2⟩], none⟩

/-- C5: the claimed name-uniqueness invariant fails in a reachable state.
`POST /api/rooms/:roomId/join` passes the request name to
`playerService.joinRoom` untrimmed; the duplicate scan of `joinRoom`
(room-utils.ts line 47) compares that untrimmed name case-insensitively
while `createPlayer` stores the trimmed one, so joining "alice" and then
" alice" misses the match and appends: room "R" then holds two connected
players whose display names are case-insensitively equal (both exactly
"alice"). -/
theorem c5_rest_join_breaks_name_uniqueness :
    Reachable dbDup ∧
    dbDup.getRoom "R" = some roomDup ∧
    roomDup.players.map (fun p => (lowerStr p.name, p.isConnected)) =
      [("alice", true), ("alice", true)] ∧
    ¬ roomDup.players.Pairwise (fun a b =>
        a.isConnected = true → b.isConnected = true →
        lowerStr a.name ≠ lowerStr b.name) :=
  ⟨Reachable.step
    (Reachable.step
      (Reachable.step Reachable.init (Step.createRoom "R" 0 DB.empty))
      (Step.restJoin "R" "alice" "id1" 1
        (Services.createRoomService "R" 0 DB.empty).1))
    (Step.restJoin "R" " alice" "id2" 2
      (Services.joinRoomService "R" "alice" "id1" 1
        (Services.createRoomService "R" 0 DB.empty).1).1),
   by decide,
   by decide,
   fun hpw => (List.pairwise_cons.mp hpw).1 _ (List.mem_singleton_self _)
     rfl rfl rfl⟩

end PlanningPoker
